import Mathlib

/-!
Verification of the OBD2 analytics backend.

This file gives a shallow embedding, in Lean 4, of the parts of the
repository that the verified properties talk about:

* `analytics-worker/worker.py` — the sample normalizer (`to_long_form`),
  the pivot / 1 Hz downsample pipeline and the KPI calculator of
  `build_pack`;
* `robust_server.py` — the final-response extraction of
  `run_research` / `run_analysis`, the completed-results stores and
  their retention policy, the result-retrieval endpoints, the
  progress-ticker task, and the connection / job lifecycle around
  client disconnect.

Python machine values are modelled by the inductive type `PyVal`;
Python floats are modelled by exact rationals (`ℚ`); fallible Python
code is modelled in the `Except PyErr` monad.  Dictionaries are
modelled as association lists in insertion order, matching Python
dict iteration order.
-/

namespace Obd2

/-- Python runtime values as they appear in the worker and the server:
`None`, booleans, ints, floats (modelled exactly as rationals),
strings, dicts (association lists in insertion order) and lists. -/
inductive PyVal where
  | none
  | bool (b : Bool)
  | int (n : Int)
  | float (q : ℚ)
  | str (s : String)
  | dict (d : List (String × PyVal))
  | list (l : List PyVal)

/-- Python exceptions that the embedded code can raise. -/
inductive PyErr where
  | typeError
  | valueError
  | keyError
deriving DecidableEq

end Obd2

deriving instance DecidableEq for Except

namespace Obd2

/-- Lookup of a key in a Python dict (first binding wins, as in a dict
whose keys are unique). -/
def lookupKey (d : List (String × PyVal)) (k : String) : Option PyVal :=
  (d.find? (fun p => p.1 = k)).map (fun p => p.2)

/-- Numeric value of a list of decimal digit characters. -/
def digitsVal (cs : List Char) : Nat :=
  cs.foldl (fun a c => a * 10 + (c.toNat - 48)) 0

/-- A non-empty all-digit character list. -/
def allDigits (cs : List Char) : Bool :=
  (!cs.isEmpty) && cs.all (fun c => c.isDigit)

/-- Leading and trailing whitespace removal, the `str.strip()` step
Python's numeric constructors apply to string arguments. -/
def trimSpaces (cs : List Char) : List Char :=
  ((cs.dropWhile (fun c => c.isWhitespace)).reverse.dropWhile
    (fun c => c.isWhitespace)).reverse

/-- Optional leading sign of a Python numeric literal; returns
(isNegative, rest). -/
def parseSign : List Char → (Bool × List Char)
  | '-' :: rest => (true, rest)
  | '+' :: rest => (false, rest)
  | cs => (false, cs)

/-- String argument of Python `int(...)`: optional surrounding
whitespace, optional sign, then decimal digits.  Returns `none` where
Python `int` raises `ValueError`.  (Exotic literal forms — underscores
and non-decimal bases — are outside the model.) -/
def parseIntStr (s : String) : Option Int :=
  let (neg, cs) := parseSign (trimSpaces s.toList)
  if allDigits cs then
    some (if neg then -(digitsVal cs : Int) else (digitsVal cs : Int))
  else
    Option.none

/-- String argument of Python `float(...)`: optional surrounding
whitespace, optional sign, decimal digits with an optional single
decimal point.  Returns `none` where Python `float` raises
`ValueError`.  (Exponent, `inf` and `nan` forms are outside the
model.) -/
def parseFloatStr (s : String) : Option ℚ :=
  let (neg, cs) := parseSign (trimSpaces s.toList)
  let intPart := cs.takeWhile (fun c => c.isDigit)
  let rest := cs.dropWhile (fun c => c.isDigit)
  let mag : Option ℚ :=
    match rest with
    | [] => if intPart.isEmpty then Option.none else some (digitsVal intPart : ℚ)
    | '.' :: frac =>
        if frac.all (fun c => c.isDigit) && !(intPart.isEmpty && frac.isEmpty) then
          some ((digitsVal intPart : ℚ) + (digitsVal frac : ℚ) / ((10 : ℚ) ^ frac.length))
        else
          Option.none
    | _ => Option.none
  mag.map (fun q => if neg then -q else q)

/-- Truncation of a rational toward zero, the behaviour of Python
`int(...)` on a float. -/
def ratTrunc (q : ℚ) : Int :=
  if 0 ≤ q then ⌊q⌋ else -⌊-q⌋

/-- Python builtin `int(...)` on a runtime value: ints pass through,
bools are 0/1, floats truncate toward zero, strings are parsed
(`ValueError` on failure), everything else raises `TypeError`. -/
def pyInt : PyVal → Except PyErr Int
  | .int n => .ok n
  | .bool b => .ok (if b then 1 else 0)
  | .float q => .ok (ratTrunc q)
  | .str s =>
      match parseIntStr s with
      | some n => .ok n
      | Option.none => .error .valueError
  | .none => .error .typeError
  | .dict _ => .error .typeError
  | .list _ => .error .typeError

/-- Python builtin `float(...)` on a runtime value: numbers coerce,
strings are parsed (`ValueError` on failure), everything else raises
`TypeError`. -/
def pyFloat : PyVal → Except PyErr ℚ
  | .int n => .ok (n : ℚ)
  | .bool b => .ok (if b then 1 else 0)
  | .float q => .ok q
  | .str s =>
      match parseFloatStr s with
      | some q => .ok q
      | Option.none => .error .valueError
  | .none => .error .typeError
  | .dict _ => .error .typeError
  | .list _ => .error .typeError

/-- Python `value is None`. -/
def PyVal.isNone : PyVal → Bool
  | .none => true
  | _ => false

/-- One long-form sensor reading `(ts, pid, value)`, the row shape
produced by `to_long_form` in `analytics-worker/worker.py`. -/
structure Sample where
  ts : Int
  pid : String
  value : ℚ
deriving DecidableEq

/-- Timestamp extraction of `to_long_form` (worker.py line 75):
`int(record.get("timestamp", {}).get("$date", 0)) if
isinstance(record.get("timestamp"), dict) else
int(record.get("timestamp", 0))`. -/
def extractTs (record : List (String × PyVal)) : Except PyErr Int :=
  match lookupKey record "timestamp" with
  | some (.dict d) => pyInt ((lookupKey d "$date").getD (.int 0))
  | some v => pyInt v
  | Option.none => pyInt (.int 0)

/-- The per-field body of the wide-snapshot loop of `to_long_form`
(worker.py lines 79-92): the `timestamp` / `sessionId` / `_id` keys are
skipped, `None` values are skipped, other values are coerced with
`float(...)` and a coercion failure (`ValueError` / `TypeError`) is
silently swallowed by the `except ... continue`. -/
def sampleOfField (ts : Int) (k : String) (v : PyVal) : Option Sample :=
  if k = "timestamp" ∨ k = "sessionId" ∨ k = "_id" then Option.none
  else if v.isNone then Option.none
  else
    match pyFloat v with
    | .ok q => some ⟨ts, k, q⟩
    | .error _ => Option.none

/-- All samples emitted for one wide-form record once its timestamp is
known, in field order. -/
def fieldSamples (ts : Int) (record : List (String × PyVal)) : List Sample :=
  record.filterMap (fun p => sampleOfField ts p.1 p.2)

/-- Conversion of one wide-form record by `to_long_form` (worker.py
lines 74-92).  The timestamp coercion with `int(...)` is NOT guarded by
a try/except, so its `TypeError` / `ValueError` propagates; a falsy
(zero) timestamp makes the record contribute nothing (`if not ts:
continue`). -/
def recordToSamples (record : List (String × PyVal)) : Except PyErr (List Sample) := do
  let ts ← extractTs record
  if ts = 0 then
    return []
  else
    return fieldSamples ts record

/-- The wide-snapshot branch of `to_long_form` (worker.py lines 71-95)
over a whole record list: records are processed in order and their
samples concatenated; the first uncaught timestamp-coercion exception
aborts the conversion. -/
def toLongFormWide (records : List (List (String × PyVal))) : Except PyErr (List Sample) :=
  records.foldlM (fun acc r => do
    let s ← recordToSamples r
    pure (acc ++ s)) []

/-- Arithmetic mean of a list of rationals (polars `mean` on the
non-null values of a column). -/
def meanQ (xs : List ℚ) : ℚ :=
  xs.sum / (xs.length : ℚ)

/-- Polars column mean over possibly-null cells: nulls are ignored and
the result is null when no value remains. -/
def meanOpt (vs : List (Option ℚ)) : Option ℚ :=
  let xs := vs.filterMap id
  if xs.isEmpty then Option.none else some (meanQ xs)

/-- Values of the samples that hit the cell `(t, p)` of the pivot, in
input order. -/
def matchingValues (samples : List Sample) (t : Int) (p : String) : List ℚ :=
  (samples.filter (fun s => s.ts = t ∧ s.pid = p)).map (fun s => s.value)

/-- Cell aggregation of `df_long.pivot(index="ts", columns="pid",
values="value", aggregate_function="mean")` (worker.py lines 126-131):
duplicate `(ts, pid)` pairs are aggregated by arithmetic mean; a pair
with no sample yields a null cell. -/
def pivotCell (samples : List Sample) (t : Int) (p : String) : Option ℚ :=
  let xs := matchingValues samples t p
  if xs.isEmpty then Option.none else some (meanQ xs)

/-- One row of the pivoted wide table: the `ts` index value plus one
cell per pid column. -/
structure WideRow where
  ts : Int
  cells : List (String × Option ℚ)
deriving DecidableEq

/-- Distinct `ts` index values of the pivot, in order of first
appearance. -/
def tsKeys (samples : List Sample) : List Int :=
  (samples.map (fun s => s.ts)).dedup

/-- Distinct pid column names of the pivot, in order of first
appearance. -/
def pidKeys (samples : List Sample) : List String :=
  (samples.map (fun s => s.pid)).dedup

/-- The pivot row for one `ts` index value. -/
def pivotRow (samples : List Sample) (t : Int) : WideRow :=
  ⟨t, (pidKeys samples).map (fun p => (p, pivotCell samples t p))⟩

/-- The pivoted wide table of worker.py lines 126-131, sorted ascending
by `ts` (`.sort("ts")`). -/
def pivotWide (samples : List Sample) : List WideRow :=
  ((tsKeys samples).map (pivotRow samples)).insertionSort
    (fun a b => a.ts ≤ b.ts)

/-- Cell of one wide row by column name. -/
def getCell (r : WideRow) (p : String) : Option ℚ :=
  ((r.cells.find? (fun c => c.1 = p)).map (fun c => c.2)).getD Option.none

/-- Cell of a wide table at index value `t` and column `p`: locate the
row with that `ts` and read the named cell (null when the row or the
column is missing). -/
def cellAt (rows : List WideRow) (t : Int) (p : String) : Option ℚ :=
  (((rows.find? (fun r => r.ts = t)).map (fun r => getCell r p))).getD Option.none

/-- The 1-second bucket of a row: `pl.col("ts") // 1000`, polars floor
division (worker.py line 139). -/
def rowSec (r : WideRow) : Int :=
  r.ts.fdiv 1000

/-- Distinct bucket keys of `group_by("sec")`, in order of first
appearance. -/
def secKeys (rows : List WideRow) : List Int :=
  (rows.map rowSec).dedup

/-- The rows falling into bucket `s`. -/
def secGroup (rows : List WideRow) (s : Int) : List WideRow :=
  rows.filter (fun r => rowSec r = s)

/-- Result of `group_by("sec").mean()` for one bucket (worker.py line
140): every column — including the original `ts` column — is
mean-aggregated over the bucket, ignoring nulls. -/
structure SecMeanRow where
  sec : Int
  tsMean : Option ℚ
  cells : List (String × Option ℚ)
deriving DecidableEq

/-- The mean-aggregated row of one bucket.  `cols` is the list of
non-`ts` columns of the wide frame. -/
def groupMeanRow (rows : List WideRow) (cols : List String) (s : Int) : SecMeanRow :=
  let g := secGroup rows s
  ⟨s,
   meanOpt (g.map (fun r => some (r.ts : ℚ))),
   cols.map (fun p => (p, meanOpt (g.map (fun r => getCell r p))))⟩

/-- The 1 Hz downsample of worker.py lines 137-144:
`with_columns((ts // 1000).alias("sec"))`, `group_by("sec").mean()`,
then `with_columns((sec * 1000).alias("ts"))` — which OVERWRITES the
mean-aggregated `ts` column with the bucket boundary `sec * 1000` —
then `drop("sec")` and `sort("ts")`.  The discarded `tsMean` field of
`SecMeanRow` is exactly the mean the overwrite throws away. -/
def downsample1Hz (rows : List WideRow) (cols : List String) : List WideRow :=
  (((secKeys rows).map (groupMeanRow rows cols)).map
      (fun m => WideRow.mk (m.sec * 1000) m.cells)).insertionSort
    (fun a b => a.ts ≤ b.ts)

/-- The pivot-then-downsample composition of `build_pack` (worker.py
lines 126-144). -/
def buildWide (samples : List Sample) : List WideRow :=
  downsample1Hz (pivotWide samples) (pidKeys samples)

/-! ### KPI calculator (`build_pack`, worker.py lines 147-197) -/

/-- A column-oriented view of the wide DataFrame as the KPI code reads
it: named columns of possibly-null float cells, plus the frame height
(`wide.height`, the common length of the columns). -/
structure WideDF where
  height : Nat
  cols : List (String × List (Option ℚ))

/-- Column names of the wide frame (`wide.columns`). -/
def dfColNames (w : WideDF) : List String :=
  w.cols.map (fun c => c.1)

/-- Column access `wide[name]`; a missing column raises (polars
`ColumnNotFoundError`, modelled as `keyError`). -/
def dfCol (w : WideDF) (name : String) : Except PyErr (List (Option ℚ)) :=
  match (w.cols.find? (fun c => c.1 = name)).map (fun c => c.2) with
  | some c => .ok c
  | Option.none => .error .keyError

/-- Non-null values of a column, in order. -/
def colVals (c : List (Option ℚ)) : List ℚ :=
  c.filterMap id

/-- Polars `Series.min()`: minimum of the non-null values, null when
none remain. -/
def colMin (c : List (Option ℚ)) : Option ℚ :=
  (colVals c).min?

/-- Polars `Series.max()`: maximum of the non-null values, null when
none remain. -/
def colMax (c : List (Option ℚ)) : Option ℚ :=
  (colVals c).max?

/-- Polars `Series.mean()`: mean of the non-null values, null when none
remain. -/
def colMean (c : List (Option ℚ)) : Option ℚ :=
  meanOpt c

/-- Sample variance (ddof = 1) of a value list; null when fewer than
two values, as polars `Series.std()` is. -/
def sampleVariance (xs : List ℚ) : Option ℚ :=
  if xs.length < 2 then Option.none
  else some ((xs.map (fun x => (x - meanQ xs) ^ 2)).sum / ((xs.length : ℚ) - 1))

/-- Values stored in the KPI summary dict.  Floats are rationals;
`sqrtNum v` stands for the real square root of `v` — the value of
`float(series.std())`, kept symbolic because the variance is the exact
rational the code computes and ℚ has no square root. -/
inductive KpiVal where
  | int (n : Int)
  | num (q : ℚ)
  | sqrtNum (q : ℚ)
  | null
  | str (s : String)
  | strs (l : List String)
deriving DecidableEq

/-- Python `int(x)` where `x` is a possibly-null polars scalar:
`int(None)` raises `TypeError`. -/
def pyIntOfOpt : Option ℚ → Except PyErr Int
  | some q => .ok (ratTrunc q)
  | Option.none => .error .typeError

/-- Python `float(x)` where `x` is a possibly-null polars scalar:
`float(None)` raises `TypeError`. -/
def pyFloatOfOpt : Option ℚ → Except PyErr ℚ
  | some q => .ok q
  | Option.none => .error .typeError

/-- Subtraction of two possibly-null polars scalars
(`temp_col.max() - temp_col.min()`): `None` on either side raises
`TypeError`. -/
def optSub : Option ℚ → Option ℚ → Except PyErr ℚ
  | some a, some b => .ok (a - b)
  | _, _ => .error .typeError

/-- The repeated `float(series.stat()) if series.len() > 0 else None`
idiom of the KPI code: the statistic is taken and coerced with
`float(...)` (raising on a null result) only when the series has
positive length, else the dict value is Python `None`. -/
def statOrNull (stat : List (Option ℚ) → Option ℚ) (c : List (Option ℚ)) :
    Except PyErr KpiVal :=
  if c.length > 0 then (KpiVal.num <$> pyFloatOfOpt (stat c)) else pure .null

/-- The `start` value: `int(wide["ts"].min()) if wide.height > 0 else
0` (worker.py line 151). -/
def baseStart (w : WideDF) : Except PyErr Int :=
  if w.height > 0 then dfCol w "ts" >>= fun ts => pyIntOfOpt (colMin ts)
  else pure 0

/-- The `end` value (worker.py line 152). -/
def baseEnd (w : WideDF) : Except PyErr Int :=
  if w.height > 0 then dfCol w "ts" >>= fun ts => pyIntOfOpt (colMax ts)
  else pure 0

/-- The `duration_seconds` value: `(int(max) - int(min)) // 1000`
(worker.py line 154). -/
def baseDur (w : WideDF) : Except PyErr Int :=
  if w.height > 0 then
    dfCol w "ts" >>= fun ts =>
    pyIntOfOpt (colMax ts) >>= fun mx =>
    pyIntOfOpt (colMin ts) >>= fun mn =>
    pure ((mx - mn).fdiv 1000)
  else pure 0

/-- The unconditional keys of the KPI dict (worker.py lines 149-155):
`rows`, `start`, `end`, `signals` and `duration_seconds`; the
time-derived keys fall back to 0 on an empty frame. -/
def baseKpis (w : WideDF) : Except PyErr (List (String × KpiVal)) :=
  baseStart w >>= fun startV =>
  baseEnd w >>= fun endV =>
  baseDur w >>= fun durV =>
  pure [("rows", .int w.height),
        ("start", .int startV),
        ("end", .int endV),
        ("signals", .strs ((dfColNames w).filter (fun c => c ≠ "ts"))),
        ("duration_seconds", .int durV)]

/-- The idle rpm values: `rpm_col.filter(rpm_col < 900)` — nulls drop
out of both the mask and the filter. -/
def idleVals (c : List (Option ℚ)) : List ℚ :=
  (colVals c).filter (fun q => q < 900)

/-- The idle pair of the RPM block (worker.py lines 163-166), present
exactly when `(rpm_col < 900).any()`: `float(....std())` raises on the
null std of a singleton; the idle mean of a non-empty value list is
total. -/
def idleBlock (c : List (Option ℚ)) : Except PyErr (List (String × KpiVal)) :=
  if (idleVals c).isEmpty then pure []
  else
    (match sampleVariance (idleVals c) with
     | some v => pure (KpiVal.sqrtNum v)
     | Option.none => Except.error PyErr.typeError) >>= fun stdV =>
    pure [("idleRPMStd", stdV), ("idleRPMMean", KpiVal.num (meanQ (idleVals c)))]

/-- The RPM block of the KPI dict (worker.py lines 158-166), present
exactly when an `rpm` column exists: `rpm_mean` / `rpm_max` / `rpm_min`
always assigned (null on a zero-length column), and the idle pair only
when at least one non-null value is below 900 (null comparisons count
as false in `.any()`). -/
def rpmKpis (w : WideDF) : Except PyErr (List (String × KpiVal)) :=
  if "rpm" ∈ dfColNames w then
    dfCol w "rpm" >>= fun c =>
    statOrNull colMean c >>= fun meanV =>
    statOrNull colMax c >>= fun maxV =>
    statOrNull colMin c >>= fun minV =>
    idleBlock c >>= fun idlePart =>
    pure ([("rpm_mean", meanV), ("rpm_max", maxV), ("rpm_min", minV)] ++ idlePart)
  else pure []

/-- The `coolantRiseC` value: `float(max - min)` (worker.py line 171),
raising when either side is null. -/
def coolantRise (c : List (Option ℚ)) : Except PyErr KpiVal :=
  if c.length > 0 then (KpiVal.num <$> optSub (colMax c) (colMin c)) else pure .null

/-- The engine-temperature block (worker.py lines 169-173), present
exactly when an `engineTemp` column exists. -/
def tempKpis (w : WideDF) : Except PyErr (List (String × KpiVal)) :=
  if "engineTemp" ∈ dfColNames w then
    dfCol w "engineTemp" >>= fun c =>
    coolantRise c >>= fun riseV =>
    statOrNull colMax c >>= fun maxV =>
    statOrNull colMin c >>= fun minV =>
    pure [("coolantRiseC", riseV), ("coolantMax", maxV), ("coolantMin", minV)]
  else pure []

/-- The speed block (worker.py lines 176-179), present exactly when a
`speed` column exists. -/
def speedKpis (w : WideDF) : Except PyErr (List (String × KpiVal)) :=
  if "speed" ∈ dfColNames w then
    dfCol w "speed" >>= fun c =>
    statOrNull colMean c >>= fun meanV =>
    statOrNull colMax c >>= fun maxV =>
    pure [("speed_mean", meanV), ("speed_max", maxV)]
  else pure []

/-- The short-term fuel-trim pair (worker.py lines 185-187). -/
def stftBlock (w : WideDF) : Except PyErr (List (String × KpiVal)) :=
  if "shortTermFuelTrim" ∈ dfColNames w then
    dfCol w "shortTermFuelTrim" >>= fun c =>
    statOrNull colMean c >>= fun meanV =>
    statOrNull colMax c >>= fun maxV =>
    pure [("stft_mean", meanV), ("stft_max", maxV)]
  else pure []

/-- The long-term fuel-trim pair (worker.py lines 188-190). -/
def ltftBlock (w : WideDF) : Except PyErr (List (String × KpiVal)) :=
  if "longTermFuelTrim" ∈ dfColNames w then
    dfCol w "longTermFuelTrim" >>= fun c =>
    statOrNull colMean c >>= fun meanV =>
    statOrNull colMax c >>= fun maxV =>
    pure [("ltft_mean", meanV), ("ltft_max", maxV)]
  else pure []

/-- The fuel-trim block (worker.py lines 182-190): the short- and
long-term trim statistics, each pair present exactly when its column
exists. -/
def fuelKpis (w : WideDF) : Except PyErr (List (String × KpiVal)) :=
  if "shortTermFuelTrim" ∈ dfColNames w ∨ "longTermFuelTrim" ∈ dfColNames w then
    stftBlock w >>= fun p1 =>
    ltftBlock w >>= fun p2 =>
    pure (p1 ++ p2)
  else pure []

/-- Session metadata merged into the KPI dict (worker.py lines
193-197). -/
structure SessionMeta where
  sessionName : String
  dtcCodes : List String
  vehicleId : String

/-- The metadata block: `sessionName` / `dtcCodes` / `vehicleId` are
added only when a (truthy) metadata document was found. -/
def metaKpis (meta : Option SessionMeta) : List (String × KpiVal) :=
  match meta with
  | some m => [("sessionName", .str m.sessionName),
               ("dtcCodes", .strs m.dtcCodes),
               ("vehicleId", .str m.vehicleId)]
  | Option.none => []

/-- The whole KPI summary dict of `build_pack` (worker.py lines
147-197), assembled block by block in source order. -/
def buildKpis (w : WideDF) (meta : Option SessionMeta) :
    Except PyErr (List (String × KpiVal)) :=
  baseKpis w >>= fun base =>
  rpmKpis w >>= fun rpm =>
  tempKpis w >>= fun temp =>
  speedKpis w >>= fun speed =>
  fuelKpis w >>= fun fuel =>
  pure (base ++ rpm ++ temp ++ speed ++ fuel ++ metaKpis meta)

/-- Key list of a KPI summary. -/
def kpiKeys (l : List (String × KpiVal)) : List String :=
  l.map (fun p => p.1)

/-! ### Final-response extraction (`robust_server.py` lines 474-492 and
2073-2086) -/

mutual

/-- Python `repr(...)` of a runtime value, used by `str(...)` on
containers.  Numeric formatting is abstracted (exact rationals are
printed by `toString`); the structural shape — quoting of strings,
bracketed lists, braced dicts — follows Python. -/
def pyRepr : PyVal → String
  | .none => "None"
  | .bool b => if b then "True" else "False"
  | .int n => toString n
  | .float q => toString q
  | .str s => "\x27" ++ s ++ "\x27"
  | .dict d => "\x7b" ++ String.intercalate ", " (pyReprPairs d) ++ "\x7d"
  | .list l => "[" ++ String.intercalate ", " (pyReprList l) ++ "]"

/-- Repr of the elements of a Python list. -/
def pyReprList : List PyVal → List String
  | [] => []
  | v :: vs => pyRepr v :: pyReprList vs

/-- Repr of the entries of a Python dict. -/
def pyReprPairs : List (String × PyVal) → List String
  | [] => []
  | (k, v) :: rest => ("\x27" ++ k ++ "\x27: " ++ pyRepr v) :: pyReprPairs rest

end

/-- Python `str(...)`: a string is itself, everything else is its
repr. -/
def pyStr (v : PyVal) : String :=
  match v with
  | .str s => s
  | v => pyRepr v

/-- Membership test `k in d` on a Python dict. -/
def dictHasKey (d : List (String × PyVal)) (k : String) : Bool :=
  (lookupKey d k).isSome

/-- Subscript `d[k]` on a Python dict: `KeyError` when absent. -/
def pyGetItem (d : List (String × PyVal)) (k : String) : Except PyErr PyVal :=
  match lookupKey d k with
  | some v => .ok v
  | Option.none => .error .keyError

/-- The final-response extraction chain of `run_research`
(robust_server.py lines 483-492) and `run_analysis` (lines 2077-2086),
reached when no streamed chunk arrived: an `isinstance(dict)` with a
`response` / `text` / `content` key yields that key's value unchanged;
a list yields its elements stringified and joined with a blank line;
anything else (dicts without a known key included) yields
`str(responses)`. -/
def extractResponseText (responses : PyVal) : Except PyErr PyVal :=
  match responses with
  | .dict d =>
      if dictHasKey d "response" then pyGetItem d "response"
      else if dictHasKey d "text" then pyGetItem d "text"
      else if dictHasKey d "content" then pyGetItem d "content"
      else .ok (.str (pyStr (.dict d)))
  | .list l => .ok (.str (String.intercalate "\n\n" (l.map pyStr)))
  | v => .ok (.str (pyStr v))

/-- The whole final-content determination (robust_server.py lines
474-494 / 2074-2086): streamed chunks, when any arrived, are joined
with `"".join`; otherwise the response object is taken through the
extraction chain. -/
def determineFinal (fullContent : List String) (responses : PyVal) :
    Except PyErr PyVal :=
  if fullContent.isEmpty then extractResponseText responses
  else .ok (.str (String.join fullContent))

/-! ### Completed-results stores and their retention
(`robust_server.py` lines 527-540, 1524-1531 and 2104-2113) -/

/-- One entry of `app.state.completed_research`, as built at
robust_server.py lines 528-535.  The `content` field inlines the final
response text. -/
structure ResearchEntry where
  output_file : String
  output_path : String
  prompt : String
  client_id : String
  completion_time : ℚ
  content : String
deriving DecidableEq

/-- The entry stored by `run_research` on success (robust_server.py
lines 528-535). -/
def mkResearchEntry (output_file output_path prompt client_id : String)
    (now : ℚ) (responseText : String) : ResearchEntry :=
  ⟨output_file, output_path, prompt, client_id, now, responseText⟩

/-- One visualization record of a completed analysis. -/
structure VizRec where
  path : String
  description : String
  filename : String
deriving DecidableEq

/-- One entry of `app.state.completed_analysis`, as built at
robust_server.py lines 2105-2113. -/
structure AnalysisEntry where
  output_dir : String
  report_file : String
  file_path : String
  client_id : String
  completion_time : ℚ
  visualizations : List VizRec
  content : String
deriving DecidableEq

/-- Assignment `d[k] = v` on a Python dict modelled as an association
list in insertion order: an existing key is overwritten in place, a new
key is appended. -/
def dictSet {α : Type} (d : List (String × α)) (k : String) (v : α) :
    List (String × α) :=
  if (d.find? (fun p => p.1 = k)).isSome then
    d.map (fun p => if p.1 = k then (k, v) else p)
  else d ++ [(k, v)]

/-- Lookup in a dict modelled as an association list. -/
def lookupDict {α : Type} (d : List (String × α)) (k : String) : Option α :=
  (d.find? (fun p => p.1 = k)).map (fun p => p.2)

/-- Python `min(items, key=lambda x: x[1]["completion_time"])` over a
non-empty dict: the first entry attaining the minimal completion time
in iteration order. -/
def minByCompletion (x : String × ResearchEntry) (xs : List (String × ResearchEntry)) :
    String × ResearchEntry :=
  xs.foldl (fun best y =>
    if y.2.completion_time < best.2.completion_time then y else best) x

/-- The eviction of robust_server.py lines 539-540: `min(items,
key=...completion_time)` followed by `del` of that key. -/
def evictOldest (s1 : List (String × ResearchEntry)) : List (String × ResearchEntry) :=
  match s1 with
  | [] => s1
  | x :: xs => s1.eraseP (fun p => p.1 = (minByCompletion x xs).1)

/-- Recording one completed research job (robust_server.py lines
528-540): insert the entry, then, if the store now holds more than 100
entries, delete the single entry with the oldest completion time. -/
def recordCompletedResearch (store : List (String × ResearchEntry))
    (jobId : String) (e : ResearchEntry) : List (String × ResearchEntry) :=
  let s1 := dictSet store jobId e
  if s1.length > 100 then evictOldest s1 else s1

/-- Recording one completed analysis job (robust_server.py lines
2105-2113, and likewise line 1524): a plain dict assignment — no
retention cap and no eviction follow it. -/
def recordCompletedAnalysis (store : List (String × AnalysisEntry))
    (jobId : String) (e : AnalysisEntry) : List (String × AnalysisEntry) :=
  dictSet store jobId e

/-! ### Result retrieval (`robust_server.py` lines 753-810 and
1632-1681) -/

/-- The view of a `research_jobs` registry entry that the retrieval
endpoints read. -/
structure JobInfo where
  status : String
  progress : Int
  output_file : Option String
  start_time : ℚ
  end_time : Option ℚ
  error : Option String
deriving DecidableEq

/-- Response of `GET /research/results/(job_id)` (robust_server.py
lines 1632-1681). -/
inductive RestResult where
  | success (job_id output_file content prompt : String) (completion_time : ℚ)
  | statusView (status : String) (progress : Int) (output_file : Option String)
      (started_at : ℚ) (ended_at : Option ℚ) (error : Option String)
  | errorMsg (message : String)
  | notFound
deriving DecidableEq

/-- The REST result-retrieval handler `get_research_results`
(robust_server.py lines 1632-1681).  `fs` models the disk: `fs path`
is the content of the file at `path`, `Option.none` when the file does
not exist (`os.path.exists` is `(fs path).isSome`; reads of existing
files are modelled as succeeding).  A completed entry whose output
file is gone answers an error — the inlined `content` field of the
entry is never consulted. -/
def getResearchResults (completed : List (String × ResearchEntry))
    (jobs : List (String × JobInfo)) (fs : String → Option String)
    (job_id : String) : RestResult :=
  match lookupDict completed job_id with
  | some e =>
      match fs e.output_path with
      | some content =>
          .success job_id e.output_file content e.prompt e.completion_time
      | Option.none => .errorMsg "Research output file not found"
  | Option.none =>
      match lookupDict jobs job_id with
      | some j =>
          .statusView j.status j.progress j.output_file j.start_time j.end_time j.error
      | Option.none => .notFound

/-- Server→client messages of the WebSocket `get_result` branch. -/
inductive WsMsg where
  | researchResult (job_id output_file content prompt : String)
      (completion_time : ℚ)
  | researchStatus (job_id status : String) (progress : Int)
      (output_file : Option String)
  | errorMsg (message : String)
deriving DecidableEq

/-- The WebSocket `get_result` branch (robust_server.py lines 753-810):
same lookup order as the REST handler — completed store first (reading
the output file from disk, answering an error when it is gone), then
the live job registry, then a not-found error.  A missing or empty
(falsy) `job_id` is answered with an error. -/
def wsGetResult (completed : List (String × ResearchEntry))
    (jobs : List (String × JobInfo)) (fs : String → Option String)
    (job_id : Option String) : WsMsg :=
  match job_id with
  | Option.none => .errorMsg "Job ID is required to retrieve results"
  | some jid =>
      if jid = "" then .errorMsg "Job ID is required to retrieve results"
      else
        match lookupDict completed jid with
        | some e =>
            match fs e.output_path with
            | some content =>
                .researchResult jid e.output_file content e.prompt e.completion_time
            | Option.none => .errorMsg "Research output file not found"
        | Option.none =>
            match lookupDict jobs jid with
            | some j => .researchStatus jid j.status j.progress j.output_file
            | Option.none => .errorMsg ("Research job with ID " ++ jid ++ " not found")

/-! ### Progress ticker (`robust_server.py` lines 283-316 and
1787-1818) -/

/-- Job status values used by the server registries (`research_jobs`
entries are created directly in `processing`, robust_server.py line
257). -/
inductive JStatus where
  | processing
  | completed
  | failed
deriving DecidableEq

/-- The slice of a `research_jobs` entry that the progress ticker can
touch. -/
structure JobState where
  status : JStatus
  progress : Int
deriving DecidableEq

/-- Constants of one `send_progress_updates` instance: initial
progress, progress ceiling and per-tick increment. -/
structure TickerCfg where
  startP : Int
  maxP : Int
  inc : Int
deriving DecidableEq

/-- The research ticker (robust_server.py lines 283-294): 40 → 65 in
steps of 3. -/
def researchTickerCfg : TickerCfg := ⟨40, 65, 3⟩

/-- The analysis ticker (robust_server.py lines 1787-1797): 10 → 90 in
steps of 5. -/
def analysisTickerCfg : TickerCfg := ⟨10, 90, 5⟩

/-- Control point of the ticker coroutine between suspension points. -/
inductive TickerPhase where
  | loopHead
  | sleeping
  | sending
  | done
deriving DecidableEq

/-- State of one ticker task: its control point and its local
`current_progress`. -/
structure TickerState where
  phase : TickerPhase
  cur : Int
deriving DecidableEq

/-- One atomic segment of `send_progress_updates` (robust_server.py
lines 283-316 / 1787-1818), between consecutive suspension points.  The
job argument is `Option.none` when `job_id` is absent from
`research_jobs`.

* `loopHead` — the `while` guard re-reads the status, then suspends in
  `asyncio.sleep` (a missing registry entry raises KeyError into the
  surrounding `except`, ending the task);
* `sleeping` — resumption after the sleep: the `if job_id in
  research_jobs and status == "processing"` re-check, the increment of
  `current_progress` and the write to `progress` are a single segment —
  the source has no `await` between the re-check (lines 293 / 1796) and
  the write (lines 295 / 1798);
* `sending` — the `send_text` suspension touches no job field;
* `done` — the task has returned. -/
def tickerStep (cfg : TickerCfg) (t : TickerState) (job : Option JobState) :
    TickerState × Option JobState :=
  match t.phase with
  | .loopHead =>
      match job with
      | some j =>
          if j.status = .processing ∧ t.cur < cfg.maxP then
            (⟨.sleeping, t.cur⟩, job)
          else (⟨.done, t.cur⟩, job)
      | Option.none => (⟨.done, t.cur⟩, job)
  | .sleeping =>
      match job with
      | some j =>
          if j.status = .processing then
            (⟨.sending, t.cur + cfg.inc⟩, some ⟨j.status, t.cur + cfg.inc⟩)
          else (⟨.done, t.cur⟩, job)
      | Option.none => (⟨.done, t.cur⟩, job)
  | .sending => (⟨.loopHead, t.cur⟩, job)
  | .done => (t, job)

/-! ### Connection lifecycle and disconnect (`robust_server.py` lines
737-741, 979-982 and 1013-1023) -/

/-- Progress of the background job-runner task (`run_research` /
`run_analysis`) launched with `asyncio.create_task` and added to
`websocket_tasks[client_id]` (robust_server.py lines 738-741 /
979-982). -/
inductive RunnerPhase where
  | running
  | cancelled
  | finishedOk
  | finishedErr
deriving DecidableEq

/-- State of one client and one of its jobs: whether the client id has
a live channel in `active_connections`, whether the runner task is
still tracked in `websocket_tasks[client_id]`, the runner's progress,
and the job's registry entry (`research_jobs` never deletes entries, so
the entry only ever changes status/progress). -/
structure Sys where
  connected : Bool
  ownedRunner : Bool
  runner : RunnerPhase
  job : Option JobState
deriving DecidableEq

/-- Effect of the `finally` teardown block of the WebSocket endpoint
(robust_server.py lines 1013-1023): the channel mapping is removed from
`active_connections`, every not-yet-done task owned by the client —
the job runner included — is cancelled, and `websocket_tasks[client_id]`
is deleted.  The job registry is not touched.  A cancelled coroutine is
terminated by `asyncio.CancelledError`, which the `except Exception`
handlers of the runner (lines 593 / 2146) do not catch, so the
cancellation path performs no status write. -/
def disconnectResult (s : Sys) : Sys :=
  { s with connected := false
         , ownedRunner := false
         , runner := if s.runner = .running then .cancelled else s.runner }

/-- Interleaved steps of the client/job system.

* `runnerCompletes` — the success path of the runner (robust_server.py
  lines 523-525 / 2100-2102): progress 100, status completed;
* `runnerFails` — the `except Exception` path (lines 598-601 /
  2151-2154): status failed;
* `disconnect` — transport close runs the `finally` teardown;
* `reconnect` — a new WebSocket arriving with the same client id
  re-populates `active_connections[client_id]` (line 670) without
  touching the job registry or resurrecting cancelled tasks. -/
inductive SysStep : Sys → Sys → Prop where
  | runnerCompletes (s : Sys) (j : JobState) :
      s.runner = .running → s.job = some j →
      SysStep s { s with runner := .finishedOk,
                         job := some ⟨.completed, 100⟩ }
  | runnerFails (s : Sys) (j : JobState) :
      s.runner = .running → s.job = some j →
      SysStep s { s with runner := .finishedErr,
                         job := some ⟨.failed, j.progress⟩ }
  | disconnect (s : Sys) :
      s.connected = true → SysStep s (disconnectResult s)
  | reconnect (s : Sys) :
      s.connected = false → SysStep s { s with connected := true }

/-- Reachability in zero or more system steps. -/
def SysReaches : Sys → Sys → Prop :=
  Relation.ReflTransGen SysStep

/-! ### Concrete inputs used by witnesses and counterexamples -/

/-- A wide-snapshot record whose `timestamp` field is `None`. -/
def nullTsRecord : List (String × PyVal) :=
  [("timestamp", PyVal.none), ("rpm", PyVal.int 800)]

/-- A well-formed wide-snapshot record with one non-numeric field and
one null field among coercible siblings. -/
def exRecord : List (String × PyVal) :=
  [("timestamp", PyVal.int 5000), ("rpm", PyVal.int 812),
   ("note", PyVal.str "stalling at idle"), ("speed", PyVal.str "45.5"),
   ("coolant", PyVal.none)]

/-- Long-form samples of the worked example of the spec: two rpm
readings at ts 1000 and one at ts 1999. -/
def exSamples : List Sample :=
  [⟨1000, "rpm", 800⟩, ⟨1000, "rpm", 900⟩, ⟨1999, "rpm", 5000⟩]

/-- The same samples in another order. -/
def exSamplesPerm : List Sample :=
  [⟨1999, "rpm", 5000⟩, ⟨1000, "rpm", 900⟩, ⟨1000, "rpm", 800⟩]

/-- The pivoted wide rows of the worked example: ts 1000 ↦ rpm 850 and
ts 1999 ↦ rpm 5000, both in bucket 1. -/
def exWideRows : List WideRow :=
  [⟨1000, [("rpm", some 850)]⟩, ⟨1999, [("rpm", some 5000)]⟩]

/-- The rpm column as the KPI code reads it, with `[]` standing for the
unreachable missing-column case. -/
def rpmColOf (w : WideDF) : List (Option ℚ) :=
  match dfCol w "rpm" with
  | .ok c => c
  | .error _ => []

/-- The one-row wide frame with columns `ts` and `rpm` used by the C7
witness; its single rpm value 2925 is not idle (≥ 900). -/
def c7w : WideDF := ⟨1, [("ts", [some 1000]), ("rpm", [some 2925])]⟩

/-- The KPI summary `build_pack` computes for `c7w`. -/
def c7list : List (String × KpiVal) :=
  [("rows", KpiVal.int 1), ("start", KpiVal.int 1000), ("end", KpiVal.int 1000),
   ("signals", KpiVal.strs ["rpm"]), ("duration_seconds", KpiVal.int 0),
   ("rpm_mean", KpiVal.num (meanQ [(2925 : ℚ)])), ("rpm_max", KpiVal.num 2925),
   ("rpm_min", KpiVal.num 2925)]

/-- A completed-analysis entry with completion time `i`, for populating
stores in counterexamples. -/
def c9entry (i : Nat) : AnalysisEntry := ⟨"d", "r", "f", "c", (i : ℚ), [], "x"⟩

/-- A completed-analysis store already holding 100 entries. -/
def c9store : List (String × AnalysisEntry) :=
  (List.range 100).map (fun i => (toString i, c9entry i))

/-- The completed-research entry used by the C3 counterexample: its
result content is inlined. -/
def c3entry : ResearchEntry :=
  ⟨"report.md", "/abs/report.md", "diagnose misfire", "client-1", 5, "THE REPORT"⟩

/-- The system state of the C2 counterexample: a connected client whose
research job is mid-run (status processing, runner task alive and owned
by the client). -/
def c2s0 : Sys := ⟨true, true, .running, some ⟨.processing, 40⟩⟩

end Obd2

namespace Obd2

/-! ## Helper lemmas -/

/-- In an association list with nodup keys, a key determines its
value. -/
theorem pair_mem_unique {α β : Type _} {l : List (α × β)}
    (h : (l.map Prod.fst).Nodup) {k : α} {a b : β}
    (ha : (k, a) ∈ l) (hb : (k, b) ∈ l) : a = b := by
  induction l with
  | nil => cases ha
  | cons x xs ih =>
      rcases List.mem_cons.mp ha with ha0 | ha1 <;>
        rcases List.mem_cons.mp hb with hb0 | hb1
      · rw [← ha0] at hb0
        exact (Prod.mk.injEq _ _ _ _ ▸ hb0.symm).2
      · exfalso
        apply (List.nodup_cons.mp h).1
        rw [← ha0]
        exact List.mem_map.mpr ⟨(k, b), hb1, rfl⟩
      · exfalso
        apply (List.nodup_cons.mp h).1
        rw [← hb0]
        exact List.mem_map.mpr ⟨(k, a), ha1, rfl⟩
      · exact ih (List.nodup_cons.mp h).2 ha1 hb1

/-- A sample produced by the field loop carries the record timestamp
and its field name. -/
theorem sampleOfField_pid {ts : Int} {k : String} {v : PyVal} {s : Sample}
    (h : sampleOfField ts k v = some s) : s.pid = k ∧ s.ts = ts := by
  unfold sampleOfField at h
  split at h
  · cases h
  · split at h
    · cases h
    · split at h
      · cases h
        exact ⟨rfl, rfl⟩
      · cases h

/-- A null or non-coercible field value produces no sample. -/
theorem sampleOfField_none_of_bad {ts : Int} {k : String} {v : PyVal}
    (h : v.isNone = true ∨ (pyFloat v).isOk = false) :
    sampleOfField ts k v = Option.none := by
  unfold sampleOfField
  split
  · rfl
  · split
    · rfl
    · rename_i hnn
      rcases h with h | h
      · exact absurd h hnn
      · cases hpf : pyFloat v with
        | ok q =>
            rw [hpf] at h
            simp [Except.isOk, Except.toBool] at h
        | error e => rfl

/-- A sample is produced exactly for a coercible non-null field whose
key is not one of the skipped metadata keys. -/
theorem sampleOfField_ok {ts : Int} {k : String} {v : PyVal} {q : ℚ}
    (hk : ¬(k = "timestamp" ∨ k = "sessionId" ∨ k = "_id"))
    (hv : v.isNone = false) (hq : pyFloat v = .ok q) :
    sampleOfField ts k v = some ⟨ts, k, q⟩ := by
  unfold sampleOfField
  rw [if_neg hk, if_neg (by simp [hv]), hq]

end Obd2

namespace Obd2

/-! ## C10 -/

/-- C10: in wide-snapshot normalization, a record whose extracted
timestamp is the integer 0 (epoch zero) is treated exactly like a
record with no timestamp field: both make `int(...)` return 0, the
falsy-timestamp guard (`if not ts: continue`) fires, and the record is
skipped producing no Samples. -/
theorem epoch_zero_timestamp_skipped (record : List (String × PyVal)) :
    (lookupKey record "timestamp" = some (PyVal.int 0) →
      recordToSamples record = .ok []) ∧
    (lookupKey record "timestamp" = Option.none →
      recordToSamples record = .ok []) := by
  constructor
  · intro h
    simp [recordToSamples, extractTs, h, pyInt, Bind.bind, Except.bind, pure, Except.pure]
  · intro h
    simp [recordToSamples, extractTs, h, pyInt, Bind.bind, Except.bind, pure, Except.pure]

/-- Witness for C10: the record `{timestamp: 0, rpm: 800}` and the
record `{rpm: 800}` are both skipped entirely. -/
theorem epoch_zero_timestamp_skipped_witness :
    recordToSamples [("timestamp", PyVal.int 0), ("rpm", PyVal.int 800)] = .ok [] ∧
    recordToSamples [("rpm", PyVal.int 800)] = .ok [] :=
  ⟨(epoch_zero_timestamp_skipped [("timestamp", PyVal.int 0), ("rpm", PyVal.int 800)]).1 rfl,
   (epoch_zero_timestamp_skipped [("rpm", PyVal.int 800)]).2 rfl⟩

end Obd2

namespace Obd2

/-! ## C6 -/

/-- Counterexample to C6: the claim says a wide-snapshot record from
which no valid timestamp is obtainable is skipped "without raising".
But for the record `{timestamp: None, rpm: 800}` — whose timestamp is
null, so no valid timestamp is obtainable — the unguarded
`int(record.get("timestamp", 0))` at worker.py line 75 receives `None`
and raises `TypeError`: the conversion aborts instead of skipping the
record. -/
theorem normalizer_null_timestamp_raises :
    recordToSamples nullTsRecord = .error .typeError ∧
    toLongFormWide [nullTsRecord] = .error .typeError := by
  constructor
  · rfl
  · rfl

/-- C6 as amended: a record whose timestamp extraction *returns* zero
(timestamp field absent, or a zero raw value, or a date-wrapper dict
without `$date`) is skipped without a Sample and without raising, and a
record whose timestamp coercion raises (`None` or a non-numeric string)
aborts the whole conversion; field handling is as claimed: a null or
non-coercible field yields no Sample for that field while every
coercible non-null sibling field still yields its Sample. -/
theorem normalizer_skip_amended (record : List (String × PyVal))
    (hnd : (record.map Prod.fst).Nodup) :
    (extractTs record = .ok 0 → recordToSamples record = .ok []) ∧
    (∀ ts : Int, extractTs record = .ok ts → ts ≠ 0 →
      recordToSamples record = .ok (fieldSamples ts record) ∧
      (∀ k v q, (k, v) ∈ record →
        ¬(k = "timestamp" ∨ k = "sessionId" ∨ k = "_id") →
        v.isNone = false → pyFloat v = .ok q →
        (⟨ts, k, q⟩ : Sample) ∈ fieldSamples ts record) ∧
      (∀ k v, (k, v) ∈ record →
        (v.isNone = true ∨ (pyFloat v).isOk = false) →
        ∀ s ∈ fieldSamples ts record, s.pid ≠ k)) ∧
    (∀ e, extractTs record = .error e → recordToSamples record = .error e) := by
  refine ⟨?_, ?_, ?_⟩
  · intro h
    simp [recordToSamples, h, Bind.bind, Except.bind, pure, Except.pure]
  · intro ts hts hne
    refine ⟨?_, ?_, ?_⟩
    · simp [recordToSamples, hts, hne, Bind.bind, Except.bind, pure, Except.pure]
    · intro k v q hmem hk hv hq
      exact List.mem_filterMap.mpr ⟨(k, v), hmem, sampleOfField_ok hk hv hq⟩
    · intro k v hmem hbad s hs
      obtain ⟨⟨k2, v2⟩, hmem2, heq⟩ := List.mem_filterMap.mp hs
      intro hpid
      have hk2 : s.pid = k2 := (sampleOfField_pid heq).1
      have hkk : k2 = k := by rw [← hk2, hpid]
      subst hkk
      have hv2 : v2 = v := pair_mem_unique hnd hmem2 hmem
      subst hv2
      rw [sampleOfField_none_of_bad hbad] at heq
      cases heq
  · intro e h
    simp [recordToSamples, h, Bind.bind, Except.bind]

/-- Witness for C6 (amended): on the record
`{timestamp: 5000, rpm: 812, note: "stalling at idle", speed: "45.5",
coolant: None}` the conversion yields exactly the rpm and speed
samples, nothing for the non-numeric `note` or the null `coolant`. -/
theorem normalizer_skip_amended_witness :
    recordToSamples exRecord = .ok (fieldSamples 5000 exRecord) ∧
    (⟨5000, "rpm", 812⟩ : Sample) ∈ fieldSamples 5000 exRecord ∧
    (⟨5000, "speed", 91/2⟩ : Sample) ∈ fieldSamples 5000 exRecord ∧
    (∀ s ∈ fieldSamples 5000 exRecord, s.pid ≠ "note") ∧
    (∀ s ∈ fieldSamples 5000 exRecord, s.pid ≠ "coolant") := by
  have h := (normalizer_skip_amended exRecord (by decide)).2.1 5000 rfl (by decide)
  refine ⟨h.1, ?_, ?_, ?_, ?_⟩
  · exact h.2.1 "rpm" (PyVal.int 812) 812 (by simp [exRecord]) (by decide) rfl rfl
  · refine h.2.1 "speed" (PyVal.str "45.5") (91/2) (by simp [exRecord]) (by decide) rfl ?_
    have hp : parseFloatStr "45.5"
        = some (((45 : Nat) : ℚ) + ((5 : Nat) : ℚ) / (10 : ℚ) ^ (1 : Nat)) := rfl
    simp [pyFloat, hp]
    norm_num
  · exact h.2.2 "note" (PyVal.str "stalling at idle") (by simp [exRecord])
      (Or.inr rfl)
  · exact h.2.2 "coolant" PyVal.none (by simp [exRecord]) (Or.inl rfl)

end Obd2

namespace Obd2

/-! ## Pivot lemmas -/

/-- Finding a key in a keyed map image either hits the mapped pair or
nothing. -/
theorem find?_map_pair {β : Type _} (pids : List String) (f : String → β) (p : String) :
    ((pids.map (fun x => (x, f x))).find? (fun c => c.1 = p))
      = if p ∈ pids then some (p, f p) else Option.none := by
  induction pids with
  | nil => simp
  | cons x xs ih =>
      by_cases hx : x = p
      · subst hx
        rw [List.map_cons, List.find?_cons_of_pos _ (by simp)]
        simp
      · rw [List.map_cons, List.find?_cons_of_neg _ (by simp [hx]), ih]
        by_cases hp : p ∈ xs
        · simp [hp, hx]
        · simp [hp, hx, Ne.symm hx]

/-- Membership in the pivoted table. -/
theorem mem_pivotWide (l : List Sample) (r : WideRow) :
    r ∈ pivotWide l ↔ ∃ t ∈ tsKeys l, r = pivotRow l t := by
  unfold pivotWide
  rw [List.mem_insertionSort, List.mem_map]
  constructor
  · rintro ⟨t, ht, rfl⟩
    exact ⟨t, ht, rfl⟩
  · rintro ⟨t, ht, rfl⟩
    exact ⟨t, ht, rfl⟩

/-- The pivot row found for an index value present in the data. -/
theorem find?_pivotWide_pos (l : List Sample) (t : Int) (ht : t ∈ tsKeys l) :
    (pivotWide l).find? (fun r => r.ts = t) = some (pivotRow l t) := by
  have hmem : pivotRow l t ∈ pivotWide l := (mem_pivotWide l _).mpr ⟨t, ht, rfl⟩
  have hsome : ((pivotWide l).find? (fun r => r.ts = t)).isSome := by
    rw [List.find?_isSome]
    exact ⟨pivotRow l t, hmem, by simp [pivotRow]⟩
  obtain ⟨r, hr⟩ := Option.isSome_iff_exists.mp hsome
  rw [hr]
  have hr1 : r ∈ pivotWide l := List.mem_of_find?_eq_some hr
  have hr2 : r.ts = t := by simpa using List.find?_some hr
  obtain ⟨t2, _, rfl⟩ := (mem_pivotWide l r).mp hr1
  have ht2 : t2 = t := hr2
  rw [ht2]

/-- No pivot row is found for an index value absent from the data. -/
theorem find?_pivotWide_neg (l : List Sample) (t : Int) (ht : t ∉ tsKeys l) :
    (pivotWide l).find? (fun r => r.ts = t) = Option.none := by
  rw [List.find?_eq_none]
  intro r hr
  obtain ⟨t2, ht2, rfl⟩ := (mem_pivotWide l r).mp hr
  simp only [pivotRow, decide_eq_true_eq]
  intro h
  exact ht (h ▸ ht2)

/-- No sample matches an index value absent from the data. -/
theorem matchingValues_nil_of_ts (l : List Sample) (t : Int) (p : String)
    (ht : t ∉ tsKeys l) : matchingValues l t p = [] := by
  unfold matchingValues
  rw [List.map_eq_nil_iff, List.filter_eq_nil_iff]
  intro s hs
  simp only [decide_eq_true_eq, not_and]
  intro hts
  exfalso
  apply ht
  unfold tsKeys
  rw [List.mem_dedup, List.mem_map]
  exact ⟨s, hs, hts⟩

/-- No sample matches a signal absent from the data. -/
theorem matchingValues_nil_of_pid (l : List Sample) (t : Int) (p : String)
    (hp : p ∉ pidKeys l) : matchingValues l t p = [] := by
  unfold matchingValues
  rw [List.map_eq_nil_iff, List.filter_eq_nil_iff]
  intro s hs
  simp only [decide_eq_true_eq, not_and]
  intro _ hpid
  exfalso
  apply hp
  unfold pidKeys
  rw [List.mem_dedup, List.mem_map]
  exact ⟨s, hs, hpid⟩

/-- The cell the pivoted table shows at `(t, p)` is exactly the
mean-aggregated pivot cell of the long-form data. -/
theorem cellAt_pivotWide (l : List Sample) (t : Int) (p : String) :
    cellAt (pivotWide l) t p = pivotCell l t p := by
  by_cases ht : t ∈ tsKeys l
  · unfold cellAt
    rw [find?_pivotWide_pos l t ht]
    show getCell (pivotRow l t) p = pivotCell l t p
    unfold getCell pivotRow
    rw [show (WideRow.mk t ((pidKeys l).map (fun p => (p, pivotCell l t p)))).cells
          = (pidKeys l).map (fun p => (p, pivotCell l t p)) from rfl]
    rw [find?_map_pair]
    by_cases hp : p ∈ pidKeys l
    · simp [hp]
    · rw [if_neg hp]
      show Option.none = pivotCell l t p
      unfold pivotCell
      rw [matchingValues_nil_of_pid l t p hp]
      rfl
  · unfold cellAt
    rw [find?_pivotWide_neg l t ht]
    show Option.none = pivotCell l t p
    unfold pivotCell
    rw [matchingValues_nil_of_ts l t p ht]
    rfl

/-- Permutation invariance of the pivot cell. -/
theorem pivotCell_perm (l lB : List Sample) (t : Int) (p : String)
    (h : l.Perm lB) : pivotCell l t p = pivotCell lB t p := by
  have hp : (matchingValues l t p).Perm (matchingValues lB t p) :=
    ((h.filter _).map _)
  unfold pivotCell
  by_cases he : matchingValues l t p = []
  · have heB : matchingValues lB t p = [] := ((he ▸ hp).symm).eq_nil
    rw [he, heB]
  · have heB : matchingValues lB t p ≠ [] := by
      intro h0
      exact he ((h0 ▸ hp).eq_nil)
    rw [if_neg (by simpa [List.isEmpty_iff] using he),
        if_neg (by simpa [List.isEmpty_iff] using heB)]
    unfold meanQ
    rw [hp.sum_eq, hp.length_eq]

end Obd2

namespace Obd2

/-! ## C5 -/

/-- C5: the pivot cell for `(t, p)` equals the arithmetic mean of all
samples sharing that exact `(time, signal)` pair, and the cell is
invariant under any permutation of the input sample order. -/
theorem pivot_mean_and_perm_invariant (samples samplesB : List Sample)
    (t : Int) (p : String) :
    (matchingValues samples t p ≠ [] →
      cellAt (pivotWide samples) t p = some (meanQ (matchingValues samples t p))) ∧
    (samples.Perm samplesB →
      cellAt (pivotWide samples) t p = cellAt (pivotWide samplesB) t p) := by
  constructor
  · intro hne
    rw [cellAt_pivotWide]
    unfold pivotCell
    rw [if_neg (by simpa [List.isEmpty_iff] using hne)]
  · intro hperm
    rw [cellAt_pivotWide, cellAt_pivotWide]
    exact pivotCell_perm samples samplesB t p hperm

/-- Witness for C5: on the worked example, the cell at `(1000, rpm)` is
the mean of the two colliding readings however the samples are
ordered. -/
theorem pivot_mean_and_perm_invariant_witness :
    cellAt (pivotWide exSamples) 1000 "rpm"
        = some (meanQ (matchingValues exSamples 1000 "rpm")) ∧
    cellAt (pivotWide exSamples) 1000 "rpm"
        = cellAt (pivotWide exSamplesPerm) 1000 "rpm" :=
  ⟨(pivot_mean_and_perm_invariant exSamples exSamplesPerm 1000 "rpm").1 (by decide),
   (pivot_mean_and_perm_invariant exSamples exSamplesPerm 1000 "rpm").2 (by decide)⟩

end Obd2

namespace Obd2

/-! ## Downsample lemmas -/

/-- Membership in the downsampled table. -/
theorem mem_downsample (rows : List WideRow) (cols : List String) (r : WideRow) :
    r ∈ downsample1Hz rows cols ↔
      ∃ s ∈ secKeys rows, r = WideRow.mk (s * 1000) (groupMeanRow rows cols s).cells := by
  unfold downsample1Hz
  rw [List.mem_insertionSort, List.map_map, List.mem_map]
  constructor
  · rintro ⟨s, hs, rfl⟩
    exact ⟨s, hs, rfl⟩
  · rintro ⟨s, hs, rfl⟩
    exact ⟨s, hs, rfl⟩

/-- A bucket key appears exactly when some row falls into it. -/
theorem mem_secKeys (rows : List WideRow) (b : Int) :
    b ∈ secKeys rows ↔ ∃ r ∈ rows, rowSec r = b := by
  unfold secKeys
  rw [List.mem_dedup, List.mem_map]

/-- In a duplicate-free list, a present value is counted once by its
equality predicate. -/
theorem countP_decide_eq_one {α : Type _} [DecidableEq α] (l : List α) (b : α)
    (hnd : l.Nodup) (hb : b ∈ l) : l.countP (fun s => decide (s = b)) = 1 := by
  induction l with
  | nil => cases hb
  | cons x xs ih =>
      rw [List.countP_cons]
      rcases List.mem_cons.mp hb with hx | hx
      · subst hx
        have h0 : xs.countP (fun s => decide (s = b)) = 0 := by
          rw [List.countP_eq_zero]
          intro s hs
          simp only [decide_eq_true_eq]
          intro hsb
          exact (List.nodup_cons.mp hnd).1 (hsb ▸ hs)
        simp [h0]
      · have hxb : ¬(x = b) := by
          intro h
          exact (List.nodup_cons.mp hnd).1 (h ▸ hx)
        rw [ih (List.nodup_cons.mp hnd).2 hx]
        simp [hxb]

end Obd2

namespace Obd2

/-! ## C1 -/

/-- Counterexample to C1: the claim says the downsampled row's time
equals the arithmetic mean of the original timestamps in the bucket.
On the two rows with timestamps 1000 and 1999 (both in bucket
`[1000, 1999]`), the downsample emits a single row whose time is 1000 —
the bucket boundary `sec * 1000` written back at worker.py line 141 —
while the mean of the timestamps is 1499.5; the two differ.  (The
`group_by("sec").mean()` of line 140 does average the `ts` column, but
line 141 overwrites that average with `sec * 1000`.) -/
theorem downsample_time_is_boundary_not_mean :
    (downsample1Hz exWideRows ["rpm"]).map (fun r => r.ts) = [1000] ∧
    (groupMeanRow exWideRows ["rpm"] 1).tsMean = some (2999 / 2) ∧
    ((1000 : ℚ) ≠ 2999 / 2) := by
  refine ⟨by decide, ?_, by norm_num⟩
  show meanOpt (List.map (fun r => some ((r.ts : ℚ)))
      (exWideRows.filter (fun r => rowSec r = 1))) = some (2999 / 2)
  rw [show exWideRows.filter (fun r => rowSec r = 1) = exWideRows from by decide]
  show meanOpt [some ((1000 : ℚ)), some ((1999 : ℚ))] = some (2999 / 2)
  unfold meanOpt
  rw [show List.filterMap id [some ((1000 : ℚ)), some ((1999 : ℚ))] = [1000, 1999] from rfl]
  show some (meanQ [1000, 1999]) = some (2999 / 2)
  unfold meanQ
  norm_num

/-- C1 as amended: for every non-empty 1-second bucket, the downsample
collapses all wide rows of that bucket into exactly one output row, and
that row's time is the bucket boundary `T = (ts // 1000) * 1000` — not
the mean of the input timestamps, which `group_by("sec").mean()`
computes for the `ts` column but line 141 then overwrites.  Every
output row moreover carries the per-bucket column means and corresponds
to some input row's bucket. -/
theorem downsample_bucket_collapse_amended (rows : List WideRow)
    (cols : List String) (b : Int) (hb : ∃ r ∈ rows, rowSec r = b) :
    ((downsample1Hz rows cols).countP (fun o => o.ts = b * 1000)) = 1 ∧
    (∀ o ∈ downsample1Hz rows cols, o.ts = b * 1000 →
      o.cells = (groupMeanRow rows cols b).cells) ∧
    (∀ o ∈ downsample1Hz rows cols, ∃ r ∈ rows, o.ts = rowSec r * 1000) := by
  have hmul : ∀ s : Int, s * 1000 = b * 1000 ↔ s = b := by
    intro s
    constructor
    · intro h
      exact mul_right_cancel₀ (by norm_num) h
    · intro h
      rw [h]
  refine ⟨?_, ?_, ?_⟩
  · have hperm : (downsample1Hz rows cols).Perm
        (((secKeys rows).map (groupMeanRow rows cols)).map
          (fun m => WideRow.mk (m.sec * 1000) m.cells)) :=
      List.perm_insertionSort _ _
    rw [hperm.countP_eq, List.map_map, List.countP_map]
    have hcongr : (secKeys rows).countP
          ((fun o => decide (o.ts = b * 1000)) ∘
            ((fun m => WideRow.mk (m.sec * 1000) m.cells) ∘ groupMeanRow rows cols))
        = (secKeys rows).countP (fun s => decide (s = b)) := by
      apply List.countP_congr
      intro s _
      show (decide (s * 1000 = b * 1000) = true) ↔ (decide (s = b) = true)
      simp only [decide_eq_true_eq]
      exact hmul s
    rw [hcongr]
    exact countP_decide_eq_one (secKeys rows) b (List.nodup_dedup _)
      ((mem_secKeys rows b).mpr hb)
  · intro o ho hts
    obtain ⟨s, _, rfl⟩ := (mem_downsample rows cols o).mp ho
    have hsb : s = b := (hmul s).mp hts
    rw [hsb]
  · intro o ho
    obtain ⟨s, hs, rfl⟩ := (mem_downsample rows cols o).mp ho
    obtain ⟨r, hr, hrs⟩ := (mem_secKeys rows s).mp hs
    exact ⟨r, hr, by rw [hrs]⟩

/-- Witness for C1 (amended): bucket 1 of the worked example collapses
its two rows to exactly one output row stamped with the boundary
1000. -/
theorem downsample_bucket_collapse_amended_witness :
    ((downsample1Hz exWideRows ["rpm"]).countP (fun o => o.ts = 1 * 1000)) = 1 ∧
    (∀ o ∈ downsample1Hz exWideRows ["rpm"], ∃ r ∈ exWideRows, o.ts = rowSec r * 1000) := by
  have h := downsample_bucket_collapse_amended exWideRows ["rpm"] 1
    ⟨⟨1000, [("rpm", some 850)]⟩, by decide, by decide⟩
  exact ⟨h.1, h.2.2⟩

end Obd2

namespace Obd2

/-! ## KPI lemmas -/

/-- Inversion of a successful `Except` bind. -/
theorem except_bind_ok {ε α β : Type _} (x : Except ε α) (f : α → Except ε β) (b : β)
    (h : (x >>= f) = .ok b) : ∃ a, x = .ok a ∧ f a = .ok b := by
  cases x with
  | error e => simp [Bind.bind, Except.bind] at h
  | ok a =>
      refine ⟨a, rfl, ?_⟩
      simpa [Bind.bind, Except.bind] using h

/-- A present column is read successfully. -/
theorem dfCol_ok_of_mem (w : WideDF) (name : String) (h : name ∈ dfColNames w) :
    ∃ c, dfCol w name = .ok c := by
  unfold dfColNames at h
  obtain ⟨pr, hpr, hname⟩ := List.mem_map.mp h
  have hsome : ((w.cols.find? (fun c => c.1 = name)).isSome) := by
    rw [List.find?_isSome]
    exact ⟨pr, hpr, by simp [hname]⟩
  obtain ⟨pr2, hpr2⟩ := Option.isSome_iff_exists.mp hsome
  refine ⟨pr2.2, ?_⟩
  unfold dfCol
  rw [hpr2]
  rfl

/-- The keys of the unconditional KPI block. -/
theorem baseKpis_keys (w : WideDF) (l0 : List (String × KpiVal))
    (hok : baseKpis w = .ok l0) :
    kpiKeys l0 = ["rows", "start", "end", "signals", "duration_seconds"] := by
  unfold baseKpis at hok
  obtain ⟨a1, _, hok⟩ := except_bind_ok _ _ _ hok
  obtain ⟨a2, _, hok⟩ := except_bind_ok _ _ _ hok
  obtain ⟨a3, _, hok⟩ := except_bind_ok _ _ _ hok
  simp only [pure, Except.pure, Except.ok.injEq] at hok
  rw [← hok]
  rfl

/-- Without an `rpm` column the RPM block is empty. -/
theorem rpmKpis_not_mem (w : WideDF) (h : "rpm" ∉ dfColNames w) :
    rpmKpis w = .ok [] := by
  unfold rpmKpis
  rw [if_neg h]
  rfl

/-- Shape of the RPM block when the column is present: the three plain
statistics always, the idle pair exactly when some value is below
900. -/
theorem rpmKpis_shape (w : WideDF) (lr : List (String × KpiVal))
    (hmem : "rpm" ∈ dfColNames w) (hok : rpmKpis w = .ok lr) :
    ∃ c m a i rest, dfCol w "rpm" = .ok c ∧
      lr = [("rpm_mean", m), ("rpm_max", a), ("rpm_min", i)] ++ rest ∧
      (((idleVals c).isEmpty = true ∧ rest = []) ∨
       ((idleVals c).isEmpty = false ∧
         ∃ x y, rest = [("idleRPMStd", x), ("idleRPMMean", y)])) := by
  unfold rpmKpis at hok
  rw [if_pos hmem] at hok
  obtain ⟨c, hc, hok⟩ := except_bind_ok _ _ _ hok
  obtain ⟨m, _, hok⟩ := except_bind_ok _ _ _ hok
  obtain ⟨a, _, hok⟩ := except_bind_ok _ _ _ hok
  obtain ⟨i, _, hok⟩ := except_bind_ok _ _ _ hok
  obtain ⟨rest, hrest, hok⟩ := except_bind_ok _ _ _ hok
  simp only [pure, Except.pure, Except.ok.injEq] at hok
  refine ⟨c, m, a, i, rest, hc, hok.symm, ?_⟩
  unfold idleBlock at hrest
  by_cases hie : (idleVals c).isEmpty
  · left
    refine ⟨hie, ?_⟩
    rw [if_pos hie] at hrest
    simp only [pure, Except.pure, Except.ok.injEq] at hrest
    exact hrest.symm
  · right
    refine ⟨by simpa using hie, ?_⟩
    rw [if_neg hie] at hrest
    obtain ⟨x, _, hrest⟩ := except_bind_ok _ _ _ hrest
    simp only [pure, Except.pure, Except.ok.injEq] at hrest
    exact ⟨x, _, hrest.symm⟩

/-- Keys of the engine-temperature block. -/
theorem tempKpis_keys_sub (w : WideDF) (lt : List (String × KpiVal))
    (hok : tempKpis w = .ok lt) :
    ∀ k ∈ kpiKeys lt, k ∈ ["coolantRiseC", "coolantMax", "coolantMin"] := by
  unfold tempKpis at hok
  split at hok
  · obtain ⟨c, _, hok⟩ := except_bind_ok _ _ _ hok
    obtain ⟨a, _, hok⟩ := except_bind_ok _ _ _ hok
    obtain ⟨b, _, hok⟩ := except_bind_ok _ _ _ hok
    obtain ⟨d, _, hok⟩ := except_bind_ok _ _ _ hok
    simp only [pure, Except.pure, Except.ok.injEq] at hok
    rw [← hok]
    intro k hk
    simpa [kpiKeys] using hk
  · simp only [pure, Except.pure, Except.ok.injEq] at hok
    rw [← hok]
    intro k hk
    cases hk

/-- Keys of the speed block. -/
theorem speedKpis_keys_sub (w : WideDF) (ls : List (String × KpiVal))
    (hok : speedKpis w = .ok ls) :
    ∀ k ∈ kpiKeys ls, k ∈ ["speed_mean", "speed_max"] := by
  unfold speedKpis at hok
  split at hok
  · obtain ⟨c, _, hok⟩ := except_bind_ok _ _ _ hok
    obtain ⟨a, _, hok⟩ := except_bind_ok _ _ _ hok
    obtain ⟨b, _, hok⟩ := except_bind_ok _ _ _ hok
    simp only [pure, Except.pure, Except.ok.injEq] at hok
    rw [← hok]
    intro k hk
    simpa [kpiKeys] using hk
  · simp only [pure, Except.pure, Except.ok.injEq] at hok
    rw [← hok]
    intro k hk
    cases hk

/-- Keys of the fuel-trim block. -/
theorem fuelKpis_keys_sub (w : WideDF) (lf : List (String × KpiVal))
    (hok : fuelKpis w = .ok lf) :
    ∀ k ∈ kpiKeys lf, k ∈ ["stft_mean", "stft_max", "ltft_mean", "ltft_max"] := by
  unfold fuelKpis at hok
  split at hok
  · obtain ⟨p1, hp1, hok⟩ := except_bind_ok _ _ _ hok
    obtain ⟨p2, hp2, hok⟩ := except_bind_ok _ _ _ hok
    simp only [pure, Except.pure, Except.ok.injEq] at hok
    rw [← hok]
    have h1 : ∀ k ∈ kpiKeys p1, k ∈ ["stft_mean", "stft_max"] := by
      unfold stftBlock at hp1
      split at hp1
      · obtain ⟨c, _, hp1⟩ := except_bind_ok _ _ _ hp1
        obtain ⟨a, _, hp1⟩ := except_bind_ok _ _ _ hp1
        obtain ⟨b, _, hp1⟩ := except_bind_ok _ _ _ hp1
        simp only [pure, Except.pure, Except.ok.injEq] at hp1
        rw [← hp1]
        intro k hk
        simpa [kpiKeys] using hk
      · simp only [pure, Except.pure, Except.ok.injEq] at hp1
        rw [← hp1]
        intro k hk
        cases hk
    have h2 : ∀ k ∈ kpiKeys p2, k ∈ ["ltft_mean", "ltft_max"] := by
      unfold ltftBlock at hp2
      split at hp2
      · obtain ⟨c, _, hp2⟩ := except_bind_ok _ _ _ hp2
        obtain ⟨a, _, hp2⟩ := except_bind_ok _ _ _ hp2
        obtain ⟨b, _, hp2⟩ := except_bind_ok _ _ _ hp2
        simp only [pure, Except.pure, Except.ok.injEq] at hp2
        rw [← hp2]
        intro k hk
        simpa [kpiKeys] using hk
      · simp only [pure, Except.pure, Except.ok.injEq] at hp2
        rw [← hp2]
        intro k hk
        cases hk
    intro k hk
    rw [kpiKeys, List.map_append] at hk
    rcases List.mem_append.mp hk with hk | hk
    · have hmem := h1 k hk
      simp only [List.mem_cons, List.not_mem_nil, or_false] at hmem
      rcases hmem with rfl | rfl <;> simp
    · have hmem := h2 k hk
      simp only [List.mem_cons, List.not_mem_nil, or_false] at hmem
      rcases hmem with rfl | rfl <;> simp
  · simp only [pure, Except.pure, Except.ok.injEq] at hok
    rw [← hok]
    intro k hk
    cases hk

/-- Keys of the metadata block. -/
theorem metaKpis_keys_sub (meta : Option SessionMeta) :
    ∀ k ∈ kpiKeys (metaKpis meta), k ∈ ["sessionName", "dtcCodes", "vehicleId"] := by
  cases meta with
  | none =>
      intro k hk
      cases hk
  | some m =>
      intro k hk
      simpa [metaKpis, kpiKeys] using hk

/-- Decomposition of a successful KPI build into its blocks. -/
theorem buildKpis_parts (w : WideDF) (meta : Option SessionMeta)
    (l : List (String × KpiVal)) (hok : buildKpis w meta = .ok l) :
    ∃ b r t s f, baseKpis w = .ok b ∧ rpmKpis w = .ok r ∧ tempKpis w = .ok t ∧
      speedKpis w = .ok s ∧ fuelKpis w = .ok f ∧
      l = b ++ r ++ t ++ s ++ f ++ metaKpis meta := by
  unfold buildKpis at hok
  obtain ⟨b, hb, hok⟩ := except_bind_ok _ _ _ hok
  obtain ⟨r, hr, hok⟩ := except_bind_ok _ _ _ hok
  obtain ⟨t, ht, hok⟩ := except_bind_ok _ _ _ hok
  obtain ⟨s, hs, hok⟩ := except_bind_ok _ _ _ hok
  obtain ⟨f, hf, hok⟩ := except_bind_ok _ _ _ hok
  simp only [pure, Except.pure, Except.ok.injEq] at hok
  exact ⟨b, r, t, s, f, hb, hr, ht, hs, hf, hok.symm⟩

end Obd2

namespace Obd2

/-- Keys of a concatenated KPI dict. -/
theorem kpiKeys_append (x y : List (String × KpiVal)) :
    kpiKeys (x ++ y) = kpiKeys x ++ kpiKeys y :=
  List.map_append _ _ _

/-! ## C7 -/

/-- C7: the KPI summary carries the rpm keys exactly when an `rpm`
column is present — `rpm_mean` / `rpm_max` / `rpm_min` are always
assigned then (possibly null), no key of the rpm family appears
otherwise — and the idle pair `idleRPMStd` / `idleRPMMean` is omitted
whenever no rpm value is below 900. -/
theorem kpi_rpm_conditionality (w : WideDF) (meta : Option SessionMeta)
    (l : List (String × KpiVal)) (hok : buildKpis w meta = .ok l) :
    ("rpm" ∈ dfColNames w →
      "rpm_mean" ∈ kpiKeys l ∧ "rpm_max" ∈ kpiKeys l ∧ "rpm_min" ∈ kpiKeys l) ∧
    ("rpm" ∉ dfColNames w →
      ∀ k ∈ kpiKeys l,
        k ∉ ["rpm_mean", "rpm_max", "rpm_min", "idleRPMStd", "idleRPMMean"]) ∧
    ("rpm" ∈ dfColNames w → (∀ q ∈ colVals (rpmColOf w), ¬ q < 900) →
      "idleRPMStd" ∉ kpiKeys l ∧ "idleRPMMean" ∉ kpiKeys l) := by
  obtain ⟨b, r, t, s, f, hb, hr, ht, hs, hf, hl⟩ := buildKpis_parts w meta l hok
  subst hl
  have hbkeys := baseKpis_keys w b hb
  have htk := tempKpis_keys_sub w t ht
  have hsk := speedKpis_keys_sub w s hs
  have hfk := fuelKpis_keys_sub w f hf
  have hmk := metaKpis_keys_sub meta
  refine ⟨?_, ?_, ?_⟩
  · intro hmem
    obtain ⟨c, m, a, i, rest, hc, hlr, _⟩ := rpmKpis_shape w r hmem hr
    subst hlr
    refine ⟨?_, ?_, ?_⟩ <;>
      · rw [kpiKeys_append, kpiKeys_append]
        simp [kpiKeys]
  · intro hnm k hk
    have hre : r = [] := by
      rw [rpmKpis_not_mem w hnm] at hr
      injection hr with h2
      exact h2.symm
    subst hre
    simp only [kpiKeys_append, List.mem_append] at hk
    rcases hk with ((((hk | hk) | hk) | hk) | hk) | hk
    · rw [hbkeys] at hk
      simp only [List.mem_cons, List.not_mem_nil, or_false] at hk
      rcases hk with rfl | rfl | rfl | rfl | rfl <;> decide
    · cases hk
    · have hkt := htk k hk
      simp only [List.mem_cons, List.not_mem_nil, or_false] at hkt
      rcases hkt with rfl | rfl | rfl <;> decide
    · have hks := hsk k hk
      simp only [List.mem_cons, List.not_mem_nil, or_false] at hks
      rcases hks with rfl | rfl <;> decide
    · have hkf := hfk k hk
      simp only [List.mem_cons, List.not_mem_nil, or_false] at hkf
      rcases hkf with rfl | rfl | rfl | rfl <;> decide
    · have hkm := hmk k hk
      simp only [List.mem_cons, List.not_mem_nil, or_false] at hkm
      rcases hkm with rfl | rfl | rfl <;> decide
  · intro hmem hno
    obtain ⟨c, m, a, i, rest, hc, hlr, hcase⟩ := rpmKpis_shape w r hmem hr
    have hcol : rpmColOf w = c := by
      unfold rpmColOf
      rw [hc]
    rw [hcol] at hno
    have hie : (idleVals c).isEmpty = true := by
      unfold idleVals
      rw [List.isEmpty_iff, List.filter_eq_nil_iff]
      intro q hq
      simpa using hno q hq
    have hrest : rest = [] := by
      rcases hcase with ⟨_, h⟩ | ⟨h, _⟩
      · exact h
      · rw [hie] at h
        cases h
    subst hrest
    subst hlr
    constructor <;>
      · intro hcon
        simp only [kpiKeys_append, List.mem_append] at hcon
        rcases hcon with ((((hk | hk) | hk) | hk) | hk) | hk
        · rw [hbkeys] at hk
          exact absurd hk (by decide)
        · simp [kpiKeys] at hk
        · have hkt := htk _ hk
          simp at hkt
        · have hks := hsk _ hk
          simp at hks
        · have hkf := hfk _ hk
          simp at hkf
        · have hkm := hmk _ hk
          simp at hkm

end Obd2

namespace Obd2

/-- Witness for C7: on a frame whose rpm column is present with the
single non-idle value 2925, the summary carries `rpm_mean` / `rpm_max`
/ `rpm_min` and omits both idle keys. -/
theorem kpi_rpm_conditionality_witness :
    ("rpm_mean" ∈ kpiKeys c7list ∧ "rpm_max" ∈ kpiKeys c7list ∧
      "rpm_min" ∈ kpiKeys c7list) ∧
    ("idleRPMStd" ∉ kpiKeys c7list ∧ "idleRPMMean" ∉ kpiKeys c7list) := by
  have h := kpi_rpm_conditionality c7w Option.none c7list rfl
  exact ⟨h.1 (by decide), h.2.2 (by decide) (by decide)⟩

end Obd2

namespace Obd2

/-! ## Store retention lemmas -/

/-- Python `min` over a non-empty sequence returns a member. -/
theorem minByCompletion_mem (x : String × ResearchEntry)
    (xs : List (String × ResearchEntry)) : minByCompletion x xs ∈ x :: xs := by
  induction xs generalizing x with
  | nil => exact List.mem_singleton.mpr rfl
  | cons y ys ih =>
      have hgoal : minByCompletion x (y :: ys)
          = minByCompletion (if y.2.completion_time < x.2.completion_time then y else x) ys :=
        rfl
      rw [hgoal]
      have h := ih (if y.2.completion_time < x.2.completion_time then y else x)
      rcases List.mem_cons.mp h with h | h
      · rw [h]
        split
        · exact List.mem_cons_of_mem _ (List.mem_cons_self _ _)
        · exact List.mem_cons_self _ _
      · exact List.mem_cons_of_mem _ (List.mem_cons_of_mem _ h)

/-- Python `min` by completion time is a lower bound. -/
theorem minByCompletion_le (x : String × ResearchEntry)
    (xs : List (String × ResearchEntry)) :
    ∀ z ∈ x :: xs, (minByCompletion x xs).2.completion_time ≤ z.2.completion_time := by
  induction xs generalizing x with
  | nil =>
      intro z hz
      rcases List.mem_cons.mp hz with rfl | hz
      · exact le_refl _
      · cases hz
  | cons y ys ih =>
      intro z hz
      have hgoal : minByCompletion x (y :: ys)
          = minByCompletion (if y.2.completion_time < x.2.completion_time then y else x) ys :=
        rfl
      rw [hgoal]
      have hfx : (if y.2.completion_time < x.2.completion_time then y
          else x).2.completion_time ≤ x.2.completion_time := by
        split
        · rename_i hlt
          exact le_of_lt hlt
        · exact le_refl _
      have hfy : (if y.2.completion_time < x.2.completion_time then y
          else x).2.completion_time ≤ y.2.completion_time := by
        split
        · exact le_refl _
        · rename_i hnlt
          exact le_of_not_lt hnlt
      have hmin := ih (if y.2.completion_time < x.2.completion_time then y else x)
      rcases List.mem_cons.mp hz with rfl | hz
      · exact le_trans (hmin _ (List.mem_cons_self _ _)) hfx
      · rcases List.mem_cons.mp hz with rfl | hz
        · exact le_trans (hmin _ (List.mem_cons_self _ _)) hfy
        · exact hmin z (List.mem_cons_of_mem _ hz)

/-- Dict assignment of an existing key keeps the size. -/
theorem dictSet_length_mem {α : Type _} (d : List (String × α)) (k : String) (v : α)
    (h : (d.find? (fun p => p.1 = k)).isSome) :
    (dictSet d k v).length = d.length := by
  unfold dictSet
  rw [if_pos h]
  exact List.length_map _ _

/-- Dict assignment of a fresh key grows the size by one. -/
theorem dictSet_length_new {α : Type _} (d : List (String × α)) (k : String) (v : α)
    (h : (d.find? (fun p => p.1 = k)).isSome = false) :
    (dictSet d k v).length = d.length + 1 := by
  unfold dictSet
  rw [if_neg (by simp [h])]
  simp

/-- The eviction removes exactly one entry, and that entry attains the
minimal completion time. -/
theorem evictOldest_spec (x : String × ResearchEntry)
    (xs : List (String × ResearchEntry)) :
    (evictOldest (x :: xs)).length + 1 = (x :: xs).length ∧
    ∃ victim ∈ x :: xs,
      (∀ z ∈ x :: xs, victim.2.completion_time ≤ z.2.completion_time) ∧
      evictOldest (x :: xs) = (x :: xs).eraseP (fun p => p.1 = victim.1) := by
  have hmem := minByCompletion_mem x xs
  have hle := minByCompletion_le x xs
  constructor
  · exact List.length_eraseP_add_one hmem (by simp)
  · exact ⟨minByCompletion x xs, hmem, hle, rfl⟩

end Obd2

namespace Obd2

/-! ## C9 -/

/-- Counterexample to C9: the claim says "the completed-results store"
holds at most 100 entries, citing both `run_research` and
`run_analysis`.  The `completed_analysis` store written by
`run_analysis` (robust_server.py lines 2105-2113) and by
`POST /analysis` (line 1524) has NO retention cap: recording a 101st
completed analysis leaves 101 entries and evicts nothing.  Only
`completed_research` (lines 537-540) applies the cap. -/
theorem analysis_store_unbounded :
    c9store.length = 100 ∧
    (recordCompletedAnalysis c9store "jobnew" (c9entry 100)).length = 101 := by
  constructor
  · decide
  · decide

/-- C9 as amended: the completed-research store alone maintains the
at-most-100 invariant — whenever the insertion makes the count exceed
100, exactly one entry is evicted, one attaining the minimal completion
time — while the completed-analysis store performs a bare insertion
with no eviction, growing without bound. -/
theorem retention_amended (store : List (String × ResearchEntry)) (jobId : String)
    (e : ResearchEntry) (sa : List (String × AnalysisEntry)) (ja : String)
    (ea : AnalysisEntry) :
    (store.length ≤ 100 → (recordCompletedResearch store jobId e).length ≤ 100) ∧
    ((dictSet store jobId e).length > 100 →
      (recordCompletedResearch store jobId e).length + 1
          = (dictSet store jobId e).length ∧
      ∃ victim ∈ dictSet store jobId e,
        (∀ z ∈ dictSet store jobId e,
          victim.2.completion_time ≤ z.2.completion_time) ∧
        recordCompletedResearch store jobId e
            = (dictSet store jobId e).eraseP (fun p => p.1 = victim.1)) ∧
    ((sa.find? (fun p => p.1 = ja)).isSome = false →
      (recordCompletedAnalysis sa ja ea).length = sa.length + 1) := by
  have hrec : ∀ hgt : (dictSet store jobId e).length > 100,
      recordCompletedResearch store jobId e = evictOldest (dictSet store jobId e) := by
    intro hgt
    show (if (dictSet store jobId e).length > 100
        then evictOldest (dictSet store jobId e) else dictSet store jobId e) = _
    rw [if_pos hgt]
  have hrecle : ∀ hgt : ¬(dictSet store jobId e).length > 100,
      recordCompletedResearch store jobId e = dictSet store jobId e := by
    intro hgt
    show (if (dictSet store jobId e).length > 100
        then evictOldest (dictSet store jobId e) else dictSet store jobId e) = _
    rw [if_neg hgt]
  refine ⟨?_, ?_, ?_⟩
  · intro hle
    have hs1 : (dictSet store jobId e).length ≤ store.length + 1 := by
      by_cases hmem : (store.find? (fun p => p.1 = jobId)).isSome
      · rw [dictSet_length_mem store jobId e hmem]
        omega
      · rw [dictSet_length_new store jobId e (Bool.eq_false_iff.mpr hmem)]
    by_cases hgt : (dictSet store jobId e).length > 100
    · rw [hrec hgt]
      cases h1 : dictSet store jobId e with
      | nil =>
          rw [h1] at hgt
          simp at hgt
      | cons x xs =>
          have hspec := (evictOldest_spec x xs).1
          rw [h1] at hs1
          omega
    · rw [hrecle hgt]
      omega
  · intro hgt
    rw [hrec hgt]
    cases h1 : dictSet store jobId e with
    | nil =>
        rw [h1] at hgt
        simp at hgt
    | cons x xs =>
        obtain ⟨hlen, victim, hvmem, hvle, hveq⟩ := evictOldest_spec x xs
        exact ⟨hlen, victim, hvmem, hvle, hveq⟩
  · intro hfresh
    unfold recordCompletedAnalysis
    exact dictSet_length_new sa ja ea hfresh

/-- Witness for C9 (amended): inserting into an empty research store
keeps it within the cap, and inserting a fresh key into a singleton
analysis store grows it to two entries. -/
theorem retention_amended_witness :
    (recordCompletedResearch [] "j1" ⟨"o", "p", "pr", "c", 1, "t"⟩).length ≤ 100 ∧
    (recordCompletedAnalysis [("a", c9entry 0)] "b" (c9entry 1)).length = 2 := by
  have h := retention_amended [] "j1" ⟨"o", "p", "pr", "c", 1, "t"⟩
    [("a", c9entry 0)] "b" (c9entry 1)
  exact ⟨h.1 (by decide), h.2.2 (by decide)⟩

end Obd2

namespace Obd2

/-! ## C8 -/

/-- Subscripting after a successful membership check succeeds. -/
theorem pyGetItem_of_lookup (d : List (String × PyVal)) (k : String) (v : PyVal)
    (h : lookupKey d k = some v) : pyGetItem d k = .ok v := by
  unfold pyGetItem
  rw [h]

/-- Unfolding of the extraction chain on a dict. -/
theorem extractResponseText_dict (d : List (String × PyVal)) :
    extractResponseText (.dict d)
      = (if dictHasKey d "response" then pyGetItem d "response"
         else if dictHasKey d "text" then pyGetItem d "text"
         else if dictHasKey d "content" then pyGetItem d "content"
         else .ok (.str (pyStr (.dict d)))) := rfl

/-- C8: with no streamed chunk, the final-response extraction is total
over every response shape — a dict with a known key (`response`, then
`text`, then `content`) yields that key's value, a list yields its
elements stringified and joined, any other value its stringified
representation — and it never raises. -/
theorem extraction_total_shapes (fullContent : List String) (responses : PyVal)
    (hfc : fullContent = []) :
    (∃ v, determineFinal fullContent responses = .ok v) ∧
    (∀ d v, responses = .dict d → lookupKey d "response" = some v →
      determineFinal fullContent responses = .ok v) ∧
    (∀ d v, responses = .dict d → lookupKey d "response" = Option.none →
      lookupKey d "text" = some v → determineFinal fullContent responses = .ok v) ∧
    (∀ d v, responses = .dict d → lookupKey d "response" = Option.none →
      lookupKey d "text" = Option.none → lookupKey d "content" = some v →
      determineFinal fullContent responses = .ok v) ∧
    (∀ els, responses = .list els →
      determineFinal fullContent responses
          = .ok (.str (String.intercalate "\n\n" (els.map pyStr)))) ∧
    ((∀ d, responses ≠ .dict d) → (∀ els, responses ≠ .list els) →
      determineFinal fullContent responses = .ok (.str (pyStr responses))) := by
  subst hfc
  have hdf : determineFinal [] responses = extractResponseText responses := rfl
  refine ⟨?_, ?_, ?_, ?_, ?_, ?_⟩
  · rw [hdf]
    cases responses with
    | dict d =>
        rw [extractResponseText_dict]
        by_cases h1 : dictHasKey d "response"
        · obtain ⟨v, hv⟩ := Option.isSome_iff_exists.mp h1
          exact ⟨v, by rw [if_pos h1, pyGetItem_of_lookup d _ v hv]⟩
        · by_cases h2 : dictHasKey d "text"
          · obtain ⟨v, hv⟩ := Option.isSome_iff_exists.mp h2
            exact ⟨v, by rw [if_neg h1, if_pos h2, pyGetItem_of_lookup d _ v hv]⟩
          · by_cases h3 : dictHasKey d "content"
            · obtain ⟨v, hv⟩ := Option.isSome_iff_exists.mp h3
              exact ⟨v, by rw [if_neg h1, if_neg h2, if_pos h3,
                pyGetItem_of_lookup d _ v hv]⟩
            · exact ⟨_, by rw [if_neg h1, if_neg h2, if_neg h3]⟩
    | list els => exact ⟨_, rfl⟩
    | none => exact ⟨_, rfl⟩
    | bool b => exact ⟨_, rfl⟩
    | int n => exact ⟨_, rfl⟩
    | float q => exact ⟨_, rfl⟩
    | str s => exact ⟨_, rfl⟩
  · intro d v hd hv
    subst hd
    rw [hdf, extractResponseText_dict]
    rw [if_pos (by simp [dictHasKey, hv]), pyGetItem_of_lookup d _ v hv]
  · intro d v hd h1 hv
    subst hd
    rw [hdf, extractResponseText_dict]
    rw [if_neg (by simp [dictHasKey, h1]), if_pos (by simp [dictHasKey, hv]),
      pyGetItem_of_lookup d _ v hv]
  · intro d v hd h1 h2 hv
    subst hd
    rw [hdf, extractResponseText_dict]
    rw [if_neg (by simp [dictHasKey, h1]), if_neg (by simp [dictHasKey, h2]),
      if_pos (by simp [dictHasKey, hv]), pyGetItem_of_lookup d _ v hv]
  · intro els hd
    subst hd
    rw [hdf]
    rfl
  · intro hnd hnl
    rw [hdf]
    cases responses with
    | dict d => exact absurd rfl (hnd d)
    | list els => exact absurd rfl (hnl els)
    | none => rfl
    | bool b => rfl
    | int n => rfl
    | float q => rfl
    | str s => rfl

/-- Witness for C8: concrete extractions — a dict carrying a
`response`, a dict with an unknown key (stringified whole), a
two-element list (joined) and a bare scalar. -/
theorem extraction_total_shapes_witness :
    determineFinal [] (.dict [("response", .str "report body")])
        = .ok (.str "report body") ∧
    determineFinal [] (.list [.str "a", .int 3]) = .ok (.str "a\n\n3") ∧
    determineFinal [] (.int 7) = .ok (.str "7") := by
  refine ⟨?_, ?_, ?_⟩
  · exact (extraction_total_shapes [] (.dict [("response", .str "report body")])
      rfl).2.1 [("response", .str "report body")] (.str "report body") rfl rfl
  · exact (extraction_total_shapes [] (.list [.str "a", .int 3]) rfl).2.2.2.2.1
      [.str "a", .int 3] rfl
  · exact (extraction_total_shapes [] (.int 7) rfl).2.2.2.2.2
      (fun d h => PyVal.noConfusion h) (fun els h => PyVal.noConfusion h)

end Obd2

namespace Obd2

/-! ## C3 -/

/-- Counterexample to C3: the claim says retrieval returns the result
content even if the persisted output file has been removed.  The stored
record does inline the content (`"THE REPORT"`), yet with the file gone
(`fs` is empty) both the REST handler `get_research_results`
(robust_server.py lines 1640-1663) and the WebSocket `get_result`
branch (lines 767-791) answer "Research output file not found" instead
of the inlined content — retrieval reads only the disk. -/
theorem retrieval_requires_file :
    c3entry.content = "THE REPORT" ∧
    getResearchResults [("job1", c3entry)] [] (fun _ => Option.none) "job1"
        = .errorMsg "Research output file not found" ∧
    wsGetResult [("job1", c3entry)] [] (fun _ => Option.none) (some "job1")
        = .errorMsg "Research output file not found" := by
  refine ⟨rfl, rfl, rfl⟩

/-- C3 as amended: the completed-job record does store the final
content inline, but both retrieval paths serve the on-disk file: they
return the file's content while it exists and an error once it has been
removed; the inlined copy is never consulted by retrieval. -/
theorem retrieval_amended (completed : List (String × ResearchEntry))
    (jobs : List (String × JobInfo)) (fs : String → Option String)
    (jid : String) (e : ResearchEntry) (hjid : jid ≠ "")
    (hmem : lookupDict completed jid = some e) :
    (∀ o p pr c t txt, (mkResearchEntry o p pr c t txt).content = txt) ∧
    (∀ content, fs e.output_path = some content →
      getResearchResults completed jobs fs jid
          = .success jid e.output_file content e.prompt e.completion_time ∧
      wsGetResult completed jobs fs (some jid)
          = .researchResult jid e.output_file content e.prompt e.completion_time) ∧
    (fs e.output_path = Option.none →
      getResearchResults completed jobs fs jid
          = .errorMsg "Research output file not found" ∧
      wsGetResult completed jobs fs (some jid)
          = .errorMsg "Research output file not found") := by
  refine ⟨fun o p pr c t txt => rfl, ?_, ?_⟩
  · intro content hfs
    constructor
    · simp [getResearchResults, hmem, hfs]
    · simp [wsGetResult, hmem, hfs, hjid]
  · intro hfs
    constructor
    · simp [getResearchResults, hmem, hfs]
    · simp [wsGetResult, hmem, hfs, hjid]

/-- Witness for C3 (amended): with the file still on disk, both paths
return its content; with it gone, both answer the not-found error. -/
theorem retrieval_amended_witness :
    getResearchResults [("job1", c3entry)] []
        (fun p => if p = "/abs/report.md" then some "THE REPORT" else Option.none)
        "job1"
      = .success "job1" "report.md" "THE REPORT" "diagnose misfire" 5 ∧
    wsGetResult [("job1", c3entry)] [] (fun _ => Option.none) (some "job1")
      = .errorMsg "Research output file not found" := by
  have h := retrieval_amended [("job1", c3entry)] []
    (fun p => if p = "/abs/report.md" then some "THE REPORT" else Option.none)
    "job1" c3entry (by decide) rfl
  have h2 := retrieval_amended [("job1", c3entry)] [] (fun _ => Option.none)
    "job1" c3entry (by decide) rfl
  exact ⟨(h.2.1 "THE REPORT" rfl).1, (h2.2.2 rfl).2⟩

end Obd2

namespace Obd2

/-! ## C4 -/

/-- C4: once a job is terminal (Completed or Failed), no ticker segment
writes to it: the only job-writing segment of `send_progress_updates`
re-checks `status == "processing"` and performs the write in the same
atomic segment — there is no suspension point between the re-check and
the write — so a terminal job passes through every ticker step
unchanged, for the research ticker and the analysis ticker alike. -/
theorem ticker_terminal_no_write (cfg : TickerCfg) (t : TickerState) (j : JobState)
    (h : j.status = .completed ∨ j.status = .failed) :
    (tickerStep cfg t (some j)).2 = some j := by
  have hs : ¬(j.status = .processing) := by
    rcases h with h | h <;> rw [h] <;> intro hc <;> cases hc
  obtain ⟨phase, cur⟩ := t
  cases phase <;> simp [tickerStep, hs]

/-- Witness for C4: a completed job survives the write-capable
(post-sleep) segment of both configured tickers untouched. -/
theorem ticker_terminal_no_write_witness :
    (tickerStep researchTickerCfg ⟨.sleeping, 40⟩ (some ⟨.completed, 100⟩)).2
        = some ⟨.completed, 100⟩ ∧
    (tickerStep analysisTickerCfg ⟨.sleeping, 10⟩ (some ⟨.failed, 35⟩)).2
        = some ⟨.failed, 35⟩ :=
  ⟨ticker_terminal_no_write researchTickerCfg ⟨.sleeping, 40⟩ ⟨.completed, 100⟩
      (Or.inl rfl),
   ticker_terminal_no_write analysisTickerCfg ⟨.sleeping, 10⟩ ⟨.failed, 35⟩
      (Or.inr rfl)⟩

end Obd2

namespace Obd2

/-! ## System lemmas for disconnect -/

/-- Once the runner task is no longer running — finished or cancelled —
no step of the system ever touches the job registry entry again, and
the runner's phase is frozen. -/
theorem sys_stuck (s : Sys) (h : ¬(s.runner = .running)) :
    ∀ t, SysReaches s t → t.job = s.job ∧ t.runner = s.runner := by
  intro t ht
  induction ht with
  | refl => exact ⟨rfl, rfl⟩
  | tail _ hstep ih =>
      rename_i b c _
      obtain ⟨hjob, hrun⟩ := ih
      cases hstep with
      | runnerCompletes j hr hj2 =>
          rw [hrun] at hr
          exact absurd hr h
      | runnerFails j hr hj2 =>
          rw [hrun] at hr
          exact absurd hr h
      | disconnect hc2 =>
          refine ⟨hjob, ?_⟩
          show (if b.runner = .running then RunnerPhase.cancelled else b.runner) = s.runner
          rw [if_neg (by rw [hrun]; exact h), hrun]
      | reconnect hc2 => exact ⟨hjob, hrun⟩

end Obd2

namespace Obd2

/-! ## C2 -/

/-- Counterexample to C2: the claim says a job whose client disconnects
before completion still reaches a terminal state.  But the runner task
itself is added to `websocket_tasks[client_id]` (robust_server.py lines
738-741), and the teardown block (lines 1013-1023) cancels every owned
task — the runner included.  `asyncio.CancelledError` is not caught by
the `except Exception` handler (line 593), so no status write happens:
from the post-disconnect state, every reachable state still shows the
job `processing` — it never becomes Completed or Failed.  (The registry
entry itself does survive, as the claim's last clause says.) -/
theorem disconnect_cancels_runner :
    SysStep c2s0 (disconnectResult c2s0) ∧
    (disconnectResult c2s0).job = some ⟨.processing, 40⟩ ∧
    (disconnectResult c2s0).runner = .cancelled ∧
    ∀ t, SysReaches (disconnectResult c2s0) t →
      t.job = some ⟨.processing, 40⟩ ∧ t.runner = .cancelled := by
  refine ⟨SysStep.disconnect c2s0 rfl, rfl, rfl, ?_⟩
  intro t ht
  have h := sys_stuck (disconnectResult c2s0) (by intro hc; cases hc) t ht
  exact h

/-- C2 as amended: on transport close the channel mapping is removed
and every owned task — the job runner included — is cancelled; the
job's registry entry survives with whatever status it had and remains
queryable, but after the disconnect no step ever changes it again: a
job still processing at disconnect stays processing forever (it does
not reach a terminal state), while a job already terminal stays
terminal and retrievable. -/
theorem disconnect_amended (s : Sys) (j : JobState)
    (hc : s.connected = true) (hj : s.job = some j) :
    SysStep s (disconnectResult s) ∧
    (disconnectResult s).job = some j ∧
    (disconnectResult s).connected = false ∧
    (disconnectResult s).ownedRunner = false ∧
    (s.runner = .running → (disconnectResult s).runner = .cancelled) ∧
    (∀ t, SysReaches (disconnectResult s) t → t.job = some j) := by
  refine ⟨SysStep.disconnect s hc, hj, rfl, rfl, ?_, ?_⟩
  · intro hr
    show (if s.runner = .running then RunnerPhase.cancelled else s.runner) = .cancelled
    rw [if_pos hr]
  · intro t ht
    have hnr : ¬((disconnectResult s).runner = .running) := by
      show ¬((if s.runner = .running then RunnerPhase.cancelled else s.runner) = .running)
      by_cases hr : s.runner = .running
      · rw [if_pos hr]
        intro hc2
        cases hc2
      · rw [if_neg hr]
        exact hr
    have h := sys_stuck (disconnectResult s) hnr t ht
    rw [h.1]
    exact hj

/-- Witness for C2 (amended): a connected client whose job already
completed — after disconnect the entry still reads completed in every
reachable state. -/
theorem disconnect_amended_witness :
    SysStep ⟨true, false, .finishedOk, some ⟨.completed, 100⟩⟩
      (disconnectResult ⟨true, false, .finishedOk, some ⟨.completed, 100⟩⟩) ∧
    (disconnectResult ⟨true, false, .finishedOk, some ⟨.completed, 100⟩⟩).job
        = some ⟨.completed, 100⟩ := by
  have h := disconnect_amended ⟨true, false, .finishedOk, some ⟨.completed, 100⟩⟩
    ⟨.completed, 100⟩ rfl rfl
  exact ⟨h.1, h.2.1⟩

end Obd2
